import Mathlib

/-!
Shallow embedding of the wormhole-shadow remote-object protocol engine
(`src/unnamed/part_000`, `src/src/helper.ts`, `src/src/worker-thread.ts`).

Modelling conventions:
* JavaScript values are `JSVal`; object and symbol identity is a natural-number
  address, promise identity is a natural-number id.  JS numbers are restricted
  to integers (the protocol never does arithmetic on them).
* Handler state (`HState`) carries the `WormHoleHandler` fields (`resolvers`,
  `solidObjects`, `disposableCallbacks`, `key2Obj`, `obj2Key`, `key2Sym`,
  `sym2Key`), the ambient globals (`globalSolidObjects`, the `Symbol.for`
  registry, the heap of live objects, the table of promises, the set of revoked
  proxies) and two observation logs: `outbox` (messages handed to `send` and
  token bindings made by `storeLocal`, in order) and `settlements` (calls made
  to pending-request resolvers).
* Effectful code runs in `M := ExceptT Halt (StateM HState)`.  A thrown JS
  value is `Halt.err`; `Halt.blocked` marks a dispatch that suspended on a
  promise that is still pending (the atomic model stops there, state kept).
* Invoked user code (`Reflect.apply` / `Reflect.construct` targets) is modelled
  as a pure function of its arguments that either returns or throws; it cannot
  itself touch the handler state.
* `dispose()` deletes every own property of the handler.  The spec only
  exercises `setSolid` / `isSolid` on a disposed endpoint, so only those two
  operations model the resulting TypeError; every other theorem about handler
  operations carries a `disposed = false` hypothesis.  Operations on a revoked
  proxy throw before any handler field is touched, exactly as in the source.
-/

namespace WormholeShadow

/-- Property keys: strings, (non-negative) numeric keys, or symbols. -/
inductive JSKey where
  | str (s : String)
  | num (n : Nat)
  | sym (a : Nat)
deriving DecidableEq, Repr

/-- `string | number` keys carried in messages (symbol identifiers on the wire). -/
inductive MsgKey where
  | str (s : String)
  | num (n : Nat)
deriving DecidableEq, Repr

/-- JavaScript values. -/
inductive JSVal where
  | undef
  | nul
  | bool (b : Bool)
  | num (n : Int)
  | str (s : String)
  | sym (a : Nat)
  | obj (a : Nat)
  | promise (p : Nat)
deriving DecidableEq, Repr

/-- `isReferenceType` from `helper.ts`: truthy and of type object/function. -/
def isReferenceType : JSVal → Bool
  | .obj _ => true
  | .promise _ => true
  | _ => false

/-- Wire representation of a single packed value (`PackedTypes`). -/
inductive Packed where
  | prim (v : JSVal)
  | token (solid : Bool) (key : Nat)
  | symbol (key : MsgKey)
  | value (v : JSVal)
  | error (name message stack : Option String)
deriving DecidableEq, Repr

/-- Is a wire entry a `clonedValue` (`{type: value}`) entry? -/
def Packed.isClonedValue : Packed → Bool
  | .value _ => true
  | _ => false

/-- A thrown JavaScript value. -/
inductive JSErr where
  | builtin (name message : String)
  | thrown (v : JSVal)
deriving DecidableEq, Repr

/-- Why a run of the model stopped abnormally. -/
inductive Halt where
  | err (e : JSErr)
  | blocked
deriving DecidableEq, Repr

/-- `MessageTypes`. -/
inductive MsgType where
  | prepare
  | assign
  | delete
  | apply
  | construct
  | resolve
  | success
  | failed
deriving DecidableEq, Repr

/-- The wire `Message` record. -/
structure WireMsg where
  type : MsgType
  token : Option Nat := none
  from_ : Option Nat := none
  into : Option Nat := none
  thisArg : Packed := .prim .undef
  args : Option (List Packed) := none
  key : Option MsgKey := none
  isSymbol : Bool := false
  value : Packed := .prim .undef
  reason : Packed := .prim .undef
deriving DecidableEq, Repr

/-- Behaviour of a callable target used by `Reflect.apply`. -/
def FnBeh := JSVal → List JSVal → Except JSVal JSVal

/-- Behaviour of a constructible target used by `Reflect.construct`. -/
def CtorBeh := List JSVal → Except JSVal JSVal

/-- Classification of a heap object. -/
inductive ObjClass where
  | plain
  | fn (applyBeh : FnBeh) (constructBeh : CtorBeh)
  | errObj (name : Option String) (message : String) (stack : Option String)
  | proxy (tok : Nat)

/-- A heap object: its classification and own data properties. -/
structure HeapObj where
  cls : ObjClass
  props : List (JSKey × JSVal)

/-- State of a promise object. -/
inductive PromState where
  | pending
  | resolved (v : JSVal)
  | rejected (v : JSVal)

/-- A call made on a pending-request resolver. -/
inductive Outcome where
  | fulfilled (v : JSVal)
  | rejected (v : JSVal)
deriving DecidableEq, Repr

/-- Observable protocol events, in order: messages handed to `send` and
token bindings performed by `storeLocal`. -/
inductive Event where
  | sent (m : WireMsg)
  | stored (tok : Nat) (v : JSVal)
deriving DecidableEq, Repr

/-- Is a message kind a reply (`success` or `failed`)? -/
def isReplyType : MsgType → Bool
  | .success => true
  | .failed => true
  | _ => false

/-- A reply event is a sent `success` or `failed` message. -/
def isReplyEvent : Event → Bool
  | .sent m => isReplyType m.type
  | .stored _ _ => false

/-- A sent `success` message. -/
def isSuccessSend : Event → Bool
  | .sent m => m.type == .success
  | .stored _ _ => false

/-- Does an event list contain a sent `success` message? -/
def hasSuccessSend (es : List Event) : Bool :=
  es.any isSuccessSend

/-- Whole-model state: the handler fields, the ambient JS globals and the
observation logs. -/
structure HState where
  resolvers : List (Nat × Nat) := []
  solidObjects : List JSVal := []
  disposableCallbacks : List Nat := []
  key2Obj : List (Nat × Nat) := []
  obj2Key : List (JSVal × Nat) := []
  key2Sym : List (Nat × Nat) := []
  sym2Key : List (Nat × Nat) := []
  disposed : Bool := false
  heap : List (Nat × HeapObj) := []
  promises : List (Nat × PromState) := []
  revoked : List Nat := []
  globalSolidObjects : List JSVal := []
  symbolRegistry : List (String × Nat) := []
  counter : Nat := 0
  nextId : Nat := 0
  outbox : List Event := []
  settlements : List (Nat × Outcome) := []

/-- Association-list lookup (models `Map.get` / `WeakMap.get`). -/
def alistGet {κ α : Type} [DecidableEq κ] (k : κ) : List (κ × α) → Option α
  | [] => none
  | (k', v) :: t => if k' = k then some v else alistGet k t

/-- Association-list update (models `Map.set`, observed through `alistGet`). -/
def alistSet {κ α : Type} [DecidableEq κ] (k : κ) (v : α) (l : List (κ × α)) :
    List (κ × α) :=
  (k, v) :: l

/-- Association-list removal (models `Map.delete`). -/
def alistRemove {κ α : Type} [DecidableEq κ] (k : κ) : List (κ × α) → List (κ × α)
  | [] => []
  | (k', v) :: t => if k' = k then alistRemove k t else (k', v) :: alistRemove k t

/-- List membership as a boolean (models `Set.has` / `WeakSet.has`). -/
def listHas {α : Type} [DecidableEq α] (x : α) : List α → Bool
  | [] => false
  | y :: t => if y = x then true else listHas x t

/-- The effect monad: JS exceptions / suspension over handler state. -/
abbrev M := ExceptT Halt (StateM HState)

/-- Run a computation on a state, yielding the outcome and the final state. -/
def runM {α : Type} (x : M α) (s : HState) : Except Halt α × HState :=
  (ExceptT.run x).run s

/-- Throw a freshly constructed builtin error (`new XError(message)`). -/
def throwErr {α : Type} (n m : String) : M α :=
  throw (.err (.builtin n m))

/-! ### Pure state observations -/

/-- `typeof` of a value (heap classification decides object vs function;
a shadow proxy wraps a callable target, so its `typeof` is function). -/
def typeofStr (s : HState) : JSVal → String
  | .undef => "undefined"
  | .nul => "object"
  | .bool _ => "boolean"
  | .num _ => "number"
  | .str _ => "string"
  | .sym _ => "symbol"
  | .promise _ => "object"
  | .obj a => match alistGet a s.heap with
    | some o => match o.cls with
      | .fn _ _ => "function"
      | .proxy _ => "function"
      | _ => "object"
    | none => "object"

/-- `target instanceof Function`.  A shadow proxy answers its prototype trap
with `null`, so it is not `instanceof Function` even though its `typeof` is
function.  (`instanceof` on a *revoked* proxy would raise; that corner is not
modelled — the model answers `false` there.) -/
def isFunctionVal (s : HState) : JSVal → Bool
  | .obj a => match alistGet a s.heap with
    | some o => match o.cls with
      | .fn _ _ => true
      | _ => false
    | none => false
  | _ => false

/-- `value instanceof Error`, and the `name` / `message` / `stack` fields read
by `pack`. -/
def errorInfoOf (s : HState) : JSVal → Option (Option String × String × Option String)
  | .obj a => match alistGet a s.heap with
    | some o => match o.cls with
      | .errObj n m st => some (n, m, st)
      | _ => none
    | none => none
  | _ => none

/-- `WrapperHandler.get`: the proxy cache maps a shadow proxy back to the
token of its backing `WrapperHandler`. -/
def wrapperGet (s : HState) : JSVal → Option Nat
  | .obj a => match alistGet a s.heap with
    | some o => match o.cls with
      | .proxy tok => some tok
      | _ => none
    | none => none
  | _ => none

/-- `WrapperHandler.isHandler`. -/
def isHandler (s : HState) (v : JSVal) : Bool :=
  (wrapperGet s v).isSome

/-- Membership of the handler's `solidObjects` or the global solid set, for a
live handler (`isSolid` without the post-dispose failure mode). -/
def isSolidB (s : HState) (v : JSVal) : Bool :=
  isReferenceType v && (listHas v s.solidObjects || listHas v s.globalSolidObjects)

/-- `Symbol.keyFor`: reverse lookup in the global symbol registry. -/
def regKeyOf (a : Nat) : List (String × Nat) → Option String
  | [] => none
  | (k, a') :: t => if a' = a then some k else regKeyOf a t

/-- The `type?: boolean | string | NewableFunction` argument of `resolveLocal`,
as it is actually used by the dispatcher: absent, a `typeof` tag, or the
`Function` constructor.  (The declared-but-never-called `silent: true`
overload is not modelled.) -/
inductive TyArg where
  | noTy
  | str (s : String)
  | ctorFn
deriving DecidableEq, Repr

/-- JS truthiness of the `type` argument (`if (!type) return;`). -/
def truthyTy : TyArg → Bool
  | .noTy => false
  | .str s => decide (s ≠ "")
  | .ctorFn => true

/-- `ensureType` from `helper.ts`: constructor arguments use `instanceof`,
string arguments compare `typeof`, anything else (including an absent
argument) yields `false`. -/
def ensureType (s : HState) (target : JSVal) : TyArg → Bool
  | .ctorFn => isFunctionVal s target
  | .str ts => typeofStr s target == ts
  | .noTy => false

/-- `key2Obj.has` for a possibly-absent id. -/
def keyKnown (s : HState) : Option Nat → Bool
  | none => false
  | some i => (alistGet i s.key2Obj).isSome

/-! ### Handler operations -/

/-- `WorkerThreadHandler.aquireToken`: `++this.counter[0]` on a `Uint32Array`.
The prefix-increment expression yields the uncoerced sum; the typed array
stores it modulo `2 ^ 32`. -/
def aquireToken : M Nat := do
  let s ← get
  let t := s.counter + 1
  set { s with counter := t % 2 ^ 32 }
  pure t

/-- `send`: hand one message to the transport (recorded in the outbox). -/
def send (m : WireMsg) : M Unit :=
  modify fun s => { s with outbox := s.outbox ++ [.sent m] }

/-- Allocate a fresh already-resolved promise. -/
def newPromiseResolved (v : JSVal) : M Nat := do
  let s ← get
  let pid := s.nextId
  set { s with nextId := pid + 1, promises := alistSet pid (.resolved v) s.promises }
  pure pid

/-- Allocate a fresh pending promise. -/
def newPromisePending : M Nat := do
  let s ← get
  let pid := s.nextId
  set { s with nextId := pid + 1, promises := alistSet pid .pending s.promises }
  pure pid

/-- `Promise.resolve(v)`: returns `v` itself when it is already a promise. -/
def promResolve (v : JSVal) : M Nat :=
  match v with
  | .promise pid => pure pid
  | _ => newPromiseResolved v

/-- `WormHoleHandler.storeLocal`: bind a value to a token immediately (via
`Promise.resolve`), recording the reverse mapping for reference values. -/
def storeLocal (id : Option Nat) (obj : JSVal) : M Unit := do
  match id with
  | none => throwErr "ReferenceError" "Invalid Id"
  | some i => do
    let pid ← promResolve obj
    modify fun s =>
      { s with key2Obj := alistSet i pid s.key2Obj,
               outbox := s.outbox ++ [.stored i obj] }
    if isReferenceType obj then
      modify fun s => { s with obj2Key := alistSet obj i s.obj2Key }
    else
      pure ()

/-- `WormHoleHandler.registerToken`. -/
def registerToken (v : JSVal) (tok : Option Nat := none) : M Nat := do
  let s ← get
  match wrapperGet s v with
  | some hid => pure hid
  | none =>
    match alistGet v s.obj2Key with
    | some i => pure i
    | none => do
      let i ← match tok with
        | none => aquireToken
        | some t => pure t
      storeLocal (some i) v
      pure i

/-- `WormHoleHandler.setSolid`.  After `dispose()` the backing `WeakSet`
field has been deleted, so touching it raises a TypeError; a non-reference
argument short-circuits before the field is read. -/
def setSolid (v : JSVal) : M Unit := do
  if isReferenceType v then do
    let s ← get
    if s.disposed then
      throwErr "TypeError" "Cannot read properties of undefined (solidObjects.add)"
    else
      set { s with solidObjects := v :: s.solidObjects }
  else
    pure ()

/-- `WormHoleHandler.isSolid`, with the same post-dispose failure mode. -/
def isSolid (v : JSVal) : M Bool := do
  if isReferenceType v then do
    let s ← get
    if s.disposed then
      throwErr "TypeError" "Cannot read properties of undefined (solidObjects.has)"
    else
      pure (listHas v s.solidObjects || listHas v s.globalSolidObjects)
  else
    pure false

/-- `WormHoleHandler.fromSymbol`. -/
def fromSymbol (a : Nat) : M MsgKey := do
  let s ← get
  match regKeyOf a s.symbolRegistry with
  | some k => pure (.str k)
  | none =>
    match alistGet a s.sym2Key with
    | some k => pure (.num k)
    | none => do
      let k ← aquireToken
      modify fun s =>
        { s with key2Sym := alistSet k a s.key2Sym, sym2Key := alistSet a k s.sym2Key }
      pure (.num k)

/-- `WormHoleHandler.toSymbol`, returning the symbol's identity. -/
def toSymbol (k : MsgKey) : M Nat :=
  match k with
  | .str str => do
    let s ← get
    match alistGet str s.symbolRegistry with
    | some a => pure a
    | none => do
      let a := s.nextId
      set { s with nextId := a + 1, symbolRegistry := alistSet str a s.symbolRegistry }
      pure a
  | .num n => do
    let s ← get
    match alistGet n s.key2Sym with
    | some a => pure a
    | none => do
      let a := s.nextId
      set { s with nextId := a + 1,
                   key2Sym := alistSet n a s.key2Sym,
                   sym2Key := alistSet a n s.sym2Key }
      pure a

/-- `WormHoleHandler.sendAndWait`: allocate the result promise, acquire a
correlation token, record the settle-pair, send.  Returns the promise id. -/
def sendAndWait (m : WireMsg) : M Nat := do
  let pid ← newPromisePending
  let tok ← aquireToken
  modify fun s => { s with resolvers := alistSet tok pid s.resolvers }
  send { m with token := some tok }
  pure pid

/-- `createShadow`: `new WrapperHandler(handler, tok).resolve(true)`.
Allocates a fresh revocable proxy (the in-model proxy object subsumes its
callable target), registers it in the proxy cache and registers its revoker
via `onDispose`. -/
def createShadow (tok : Nat) : M JSVal := do
  let s ← get
  let a := s.nextId
  set { s with nextId := a + 1,
               heap := alistSet a ⟨.proxy tok, []⟩ s.heap,
               disposableCallbacks := s.disposableCallbacks ++ [a] }
  pure (.obj a)

/-- `WormHoleHandler.resolveRemote`. -/
def resolveRemote (tok : Nat) (shadowed : Bool) : M JSVal := do
  if shadowed then
    createShadow tok
  else do
    let s ← get
    match alistGet tok s.key2Obj with
    | some pid => pure (.promise pid)
    | none => do
      let pid ← sendAndWait { type := .resolve, from_ := some tok }
      modify fun s => { s with key2Obj := alistSet tok pid s.key2Obj }
      pure (.promise pid)

/-- `WormHoleHandler.pack`. -/
def pack (v : JSVal) (clone : Bool := false) : M Packed :=
  match v with
  | .sym a => do
    let k ← fromSymbol a
    pure (.symbol k)
  | .obj _ | .promise _ => do
    let s ← get
    match errorInfoOf s v with
    | some (n, m, st) => pure (.error n (some m) st)
    | none =>
      if clone then
        pure (.value v)
      else do
        let sld ← isSolid v
        if sld && !isHandler s v then
          pure (.value v)
        else do
          let sld2 ← isSolid v
          let i ← registerToken v
          pure (.token sld2 i)
  | _ => pure (.prim v)

/-- `WormHoleHandler.unpack`.  An `error` entry reconstructs a generic Error
(`Object.assign(new Error(message), {name, stack})`); real stack strings are
not modelled. -/
def unpack (p : Packed) : M JSVal :=
  match p with
  | .symbol k => do
    let a ← toSymbol k
    pure (.sym a)
  | .value v => pure v
  | .token solid key => resolveRemote key (!solid)
  | .error n m st => do
    let s ← get
    let a := s.nextId
    set { s with nextId := a + 1,
                 heap := alistSet a ⟨.errObj n (m.getD "") st, []⟩ s.heap }
    pure (.obj a)
  | .prim v => pure v

/-- `pack` applied to a caught thrown value (`this.pack(e)`).  A builtin
error raised by the handler itself packs like any Error instance. -/
def packOfThrown : JSErr → M Packed
  | .builtin n m => pure (.error (some n) (some m) none)
  | .thrown v => pack v false

/-- `await v` in a context that must produce a settled value: a pending
promise suspends the dispatch (`Halt.blocked`), a rejected one throws. -/
def awaitStrict (v : JSVal) : M JSVal :=
  match v with
  | .promise pid => do
    let s ← get
    match alistGet pid s.promises with
    | some (.resolved w) => pure w
    | some (.rejected w) => throw (.err (.thrown w))
    | _ => throw .blocked
  | w => pure w

/-- `new Object(result)`: box a primitive so it has an addressable object
form (the boxed primitive's own contents are not further modelled). -/
def boxValue (_v : JSVal) : M JSVal := do
  let s ← get
  let a := s.nextId
  set { s with nextId := a + 1, heap := alistSet a ⟨.plain, []⟩ s.heap }
  pure (.obj a)

/-- `WormHoleHandler.resolveLocal` (an absent id short-circuits before the
registry is read). -/
def resolveLocal (id : Option Nat) (ty : TyArg := .noTy) : M (Option JSVal) :=
  match id with
  | none =>
    if truthyTy ty then throwErr "ReferenceError" "Invalid Id" else pure none
  | some i => do
    let s ← get
    match alistGet i s.key2Obj with
    | none =>
      if truthyTy ty then throwErr "ReferenceError" "Invalid Id" else pure none
    | some pid => do
      let res ← awaitStrict (.promise pid)
      let s₁ ← get
      if !ensureType s₁ res ty then
        throwErr "TypeError" "Invalid type"
      else if isReferenceType res then
        pure (some res)
      else do
        let b ← boxValue res
        pure (some b)

/-- `src.map(this.unpack, this)` — sequential unpacking of a batch. -/
def mapUnpack : List Packed → M (List JSVal)
  | [] => pure []
  | p :: t => do
    let v ← unpack p
    let vs ← mapUnpack t
    pure (v :: vs)

/-- The awaiting half of `unpackAll`: entries that are live remote handles
are left untouched; every other entry is awaited. -/
def awaitNonHandlers : List JSVal → M (List JSVal)
  | [] => pure []
  | v :: t => do
    let s ← get
    if isHandler s v then do
      let rest ← awaitNonHandlers t
      pure (v :: rest)
    else do
      let w ← awaitStrict v
      let rest ← awaitNonHandlers t
      pure (w :: rest)

/-- `WormHoleHandler.unpackAll`. -/
def unpackAll (src : List Packed) : M (List JSVal) := do
  let vs ← mapUnpack src
  awaitNonHandlers vs

/-- `WormHoleHandler.resolveKey`. -/
def resolveKey (m : WireMsg) : M JSKey := do
  match m.key with
  | none => throwErr "TypeError" "Key is not defined."
  | some k =>
    if m.isSymbol then do
      let a ← toSymbol k
      pure (.sym a)
    else
      match k with
      | .str ss => pure (.str ss)
      | .num n => pure (.num n)

/-- `WormHoleHandler.popResolver`: returns the settle target (promise id) and
removes the entry, or `none` when the token is absent or unknown. -/
def popResolver (token : Option Nat) : M (Option Nat) := do
  match token with
  | none => pure none
  | some t => do
    let s ← get
    match alistGet t s.resolvers with
    | none => pure none
    | some pid => do
      set { s with resolvers := alistRemove t s.resolvers }
      pure (some pid)

/-- Call a pending-request resolver: the promise settles (only if still
pending) and the call is logged.  Thenable adoption is not modelled; the log
records exactly the value the resolver was called with. -/
def settle (pid : Nat) (o : Outcome) : M Unit :=
  modify fun s =>
    { s with
      promises := (match alistGet pid s.promises with
        | some .pending =>
          alistSet pid (match o with
            | .fulfilled v => .resolved v
            | .rejected v => .rejected v) s.promises
        | _ => s.promises),
      settlements := (pid, o) :: s.settlements }

/-! ### Remote-handle traps (`WrapperHandler` as a `ProxyHandler`) -/

/-- `Reflect.has(target, key)` where the target is the proxy's callable base
(`Object.assign(function () {}, baseTypeMixin)`): the thenable capability plus
the own and `Function.prototype`-inherited keys of a plain function.  Only the
presence of these keys is modelled, not their values. -/
def targetHasKey : JSKey → Bool
  | .str s =>
    listHas s ["then", "name", "length", "call", "apply", "bind", "toString",
               "toLocaleString", "constructor", "hasOwnProperty", "isPrototypeOf",
               "propertyIsEnumerable", "valueOf", "arguments", "caller"]
  | _ => false

/-- Every trap of a revoked proxy throws before running. -/
def checkRevoked (a : Nat) (op : String) : M Unit := do
  let s ← get
  if listHas a s.revoked then
    throwErr "TypeError" ("Cannot perform " ++ op ++ " on a proxy that has been revoked")
  else
    pure ()

/-- Convert a property key for the wire (`fromSymbol` for symbols). -/
def msgKeyOf (k : JSKey) : M (MsgKey × Bool) :=
  match k with
  | .sym a => do
    let mk ← fromSymbol a
    pure (mk, true)
  | .str s => pure (.str s, false)
  | .num n => pure (.num n, false)

/-- `WrapperHandler.get` (the read operation of a remote handle): keys of the
callable base are answered locally; any other key allocates a result token,
sends `prepare` and returns a fresh shadow bound to the result token. -/
def hGetTrap (a tok : Nat) (k : JSKey) : M JSVal := do
  checkRevoked a "get"
  if targetHasKey k then
    pure .undef
  else do
    let into ← aquireToken
    let km ← msgKeyOf k
    send { type := .prepare, from_ := some tok, key := some km.1,
           isSymbol := km.2, into := some into }
    resolveRemote into true

/-- `WrapperHandler.set` (the write operation): fire-and-forget `assign`. -/
def hSetTrap (a tok : Nat) (k : JSKey) (v : JSVal) : M Bool := do
  checkRevoked a "set"
  if targetHasKey k then
    pure false
  else do
    let km ← msgKeyOf k
    let pv ← pack v false
    send { type := .assign, from_ := some tok, key := some km.1,
           isSymbol := km.2, value := pv }
    pure true

/-- `WrapperHandler.deleteProperty`: fire-and-forget `delete`. -/
def hDeleteTrap (a tok : Nat) (k : JSKey) : M Bool := do
  checkRevoked a "deleteProperty"
  if targetHasKey k then
    pure false
  else do
    let km ← msgKeyOf k
    send { type := .delete, from_ := some tok, key := some km.1, isSymbol := km.2 }
    pure true

/-- Pack each argument in order. -/
def mapPack : List JSVal → M (List Packed)
  | [] => pure []
  | v :: t => do
    let p ← pack v false
    let ps ← mapPack t
    pure (p :: ps)

/-- `WrapperHandler.apply` (the invoke operation). -/
def hApplyTrap (a tok : Nat) (thisArg : JSVal) (args : List JSVal) : M JSVal := do
  checkRevoked a "apply"
  let into ← aquireToken
  let pThis ← pack thisArg false
  let pArgs ← mapPack args
  send { type := .apply, from_ := some tok, thisArg := pThis,
         args := some pArgs, into := some into }
  resolveRemote into true

/-- `WrapperHandler.construct` (the instantiate operation). -/
def hConstructTrap (a tok : Nat) (args : List JSVal) : M JSVal := do
  checkRevoked a "construct"
  let into ← aquireToken
  let pArgs ← mapPack args
  send { type := .construct, from_ := some tok, args := some pArgs,
         into := some into }
  resolveRemote into true

/-! ### Reflect operations used by the dispatcher -/

/-- `Reflect.get`: property reads on plain objects look up own properties
(absent reads as undefined; prototype chains of ordinary objects are not
modelled), reads on a shadow proxy run its trap, and non-objects raise. -/
def reflectGet (target : Option JSVal) (k : JSKey) : M JSVal :=
  match target with
  | some (.obj a) => do
    let s ← get
    match alistGet a s.heap with
    | some o =>
      match o.cls with
      | .proxy tok => hGetTrap a tok k
      | _ => pure ((alistGet k o.props).getD .undef)
    | none => pure .undef
  | some (.promise _) => pure .undef
  | _ => throwErr "TypeError" "Reflect.get called on non-object"

/-- `Reflect.set` (its boolean result is discarded by the dispatcher). -/
def reflectSet (target : Option JSVal) (k : JSKey) (v : JSVal) : M Unit :=
  match target with
  | some (.obj a) => do
    let s ← get
    match alistGet a s.heap with
    | some o =>
      match o.cls with
      | .proxy tok => do
        let _ ← hSetTrap a tok k v
        pure ()
      | _ =>
        set { s with heap := alistSet a { o with props := alistSet k v o.props } s.heap }
    | none => pure ()
  | some (.promise _) => pure ()
  | _ => throwErr "TypeError" "Reflect.set called on non-object"

/-- `Reflect.deleteProperty` (result likewise discarded). -/
def reflectDelete (target : Option JSVal) (k : JSKey) : M Unit :=
  match target with
  | some (.obj a) => do
    let s ← get
    match alistGet a s.heap with
    | some o =>
      match o.cls with
      | .proxy tok => do
        let _ ← hDeleteTrap a tok k
        pure ()
      | _ =>
        set { s with heap := alistSet a { o with props := alistRemove k o.props } s.heap }
    | none => pure ()
  | some (.promise _) => pure ()
  | _ => throwErr "TypeError" "Reflect.deleteProperty called on non-object"

/-- `Reflect.apply`: run the callable's behaviour, or the apply trap of a
shadow proxy. -/
def reflectApply (target : Option JSVal) (thisArg : JSVal) (args : List JSVal) :
    M JSVal :=
  match target with
  | some (.obj a) => do
    let s ← get
    match alistGet a s.heap with
    | some o =>
      match o.cls with
      | .fn beh _ =>
        match beh thisArg args with
        | .ok v => pure v
        | .error e => throw (.err (.thrown e))
      | .proxy tok => hApplyTrap a tok thisArg args
      | _ => throwErr "TypeError" "Reflect.apply target is not a function"
    | none => throwErr "TypeError" "Reflect.apply target is not a function"
  | _ => throwErr "TypeError" "Reflect.apply target is not a function"

/-- `Reflect.construct`. -/
def reflectConstruct (target : Option JSVal) (args : List JSVal) : M JSVal :=
  match target with
  | some (.obj a) => do
    let s ← get
    match alistGet a s.heap with
    | some o =>
      match o.cls with
      | .fn _ ctor =>
        match ctor args with
        | .ok v => pure v
        | .error e => throw (.err (.thrown e))
      | .proxy tok => hConstructTrap a tok args
      | _ => throwErr "TypeError" "Reflect.construct target is not a constructor"
    | none => throwErr "TypeError" "Reflect.construct target is not a constructor"
  | _ => throwErr "TypeError" "Reflect.construct target is not a constructor"

/-! ### The dispatcher -/

/-- The `switch (data.type)` of `WormHoleHandler.onReceive`: evaluates the
branch and yields the `value` and `clone` locals as they stand after the
switch. -/
def evalBranch (data : WireMsg) : M (JSVal × Bool) :=
  match data.type with
  | .prepare => do
    let f ← resolveLocal data.from_
    let k ← resolveKey data
    let value ← reflectGet f k
    pure (value, false)
  | .assign => do
    let f ← resolveLocal data.from_
    let vs ← unpackAll [data.value]
    let value := vs.headD .undef
    let k ← resolveKey data
    reflectSet f k value
    pure (value, false)
  | .delete => do
    let f ← resolveLocal data.from_
    let k ← resolveKey data
    reflectDelete f k
    pure (.undef, false)
  | .apply => do
    let f ← resolveLocal data.from_ (.str "function")
    match data.args with
    | none => throwErr "TypeError" "Arguments are not defined."
    | some args => do
      let unpacked ← unpackAll (data.thisArg :: args)
      let value ← reflectApply f (unpacked.headD .undef) unpacked.tail
      pure (value, false)
  | .construct => do
    let f ← resolveLocal data.from_ .ctorFn
    match data.args with
    | none => throwErr "TypeError" "Arguments are not defined."
    | some args => do
      let unpacked ← unpackAll args
      let value ← reflectConstruct f unpacked
      pure (value, false)
  | .resolve => do
    let v ← resolveLocal data.from_
    pure (v.getD .undef, true)
  | .success => do
    let r ← popResolver data.token
    match r with
    | none => pure (.undef, false)
    | some pid => do
      let v ← unpack data.value
      settle pid (.fulfilled v)
      pure (.undef, false)
  | .failed => do
    let r ← popResolver data.token
    match r with
    | none => pure (.undef, false)
    | some pid => do
      let v ← unpack data.reason
      settle pid (.rejected v)
      pure (.undef, false)

/-- `WormHoleHandler.onReceive`: run the branch; on normal completion store
the value under the destination token (when present) and reply `success`
(when a correlation token is present); on a thrown error reply `failed`
(when a correlation token is present).  A suspension is not an exception and
propagates. -/
def onReceive (data : WireMsg) : M Unit :=
  tryCatch
    (do
      let vc ← evalBranch data
      (match data.into with
        | some i => storeLocal (some i) vc.1
        | none => pure ())
      match data.token with
      | some tok => do
        let pv ← pack vc.1 vc.2
        send { type := .success, token := some tok, value := pv }
      | none => pure ())
    (fun e =>
      match e with
      | .blocked => throw .blocked
      | .err je =>
        match data.token with
        | some tok => do
          let pr ← packOfThrown je
          send { type := .failed, token := some tok, reason := pr }
        | none => pure ())

/-- `WormHoleHandler.dispose`: run every registered teardown callback (each
revokes one shadow proxy; revokers never throw), then delete every own
property of the handler. -/
def dispose : M Unit :=
  modify fun s =>
    { s with
      revoked := s.revoked ++ s.disposableCallbacks,
      resolvers := [], solidObjects := [], disposableCallbacks := [],
      key2Obj := [], obj2Key := [], key2Sym := [], sym2Key := [],
      disposed := true }

/-! ### The worker-thread token counter -/

/-- One `aquireToken` step on the stored `Uint32Array` counter: the returned
token and the new stored value. -/
def u32AquireToken (c : Nat) : Nat × Nat :=
  (c + 1, (c + 1) % 2 ^ 32)

/-- Stored counter value after `n` sequential calls. -/
def u32CounterAfter (c : Nat) : Nat → Nat
  | 0 => c
  | n + 1 => (u32AquireToken (u32CounterAfter c n)).2

/-- The token returned by the `k`-th sequential call (`k ≥ 1`), starting from
stored counter value `c`. -/
def u32TokenAt (c k : Nat) : Nat :=
  (u32AquireToken (u32CounterAfter c (k - 1))).1

/-! ### Invariant vocabulary used by the theorems -/

/-- The outbox of `s'` extends that of `s` by reply-free events only. -/
def ExtRF (s s' : HState) : Prop :=
  ∃ es, s'.outbox = s.outbox ++ es ∧ es.filter isReplyEvent = []

/-- A computation whose every run (normal, thrown or suspended) appends only
reply-free events to the outbox. -/
def RF {α : Type} (x : M α) : Prop :=
  ∀ s, ExtRF s (runM x s).2

/-- A computation that preserves boundness of any already-bound registry
token. -/
def K2O {α : Type} (x : M α) : Prop :=
  ∀ s t, (alistGet t s.key2Obj).isSome = true →
    (alistGet t (runM x s).2.key2Obj).isSome = true

/-- The TypeError raised by any trap of a revoked proxy. -/
def revokedErr (op : String) : Halt :=
  .err (.builtin "TypeError" ("Cannot perform " ++ op ++ " on a proxy that has been revoked"))

/-! ### Concrete demonstration states -/

/-- A freshly constructed handler with nothing registered. -/
def emptyState : HState := {}

/-- `(a, b) => a + b`, as a callable behaviour. -/
def addFn : FnBeh := fun _ args =>
  match args with
  | [.num a, .num b] => .ok (.num (a + b))
  | _ => .ok (.undef)

/-- A constructor behaviour that always throws. -/
def noCtor : CtorBeh := fun _ =>
  .error (.str "not constructible")

/-- A handler owning token 1 bound to a local adder function at heap
address 10. -/
def demoApplyState : HState :=
  { key2Obj := [(1, 0)],
    promises := [(0, .resolved (.obj 10))],
    heap := [(10, ⟨.fn addFn noCtor, []⟩)],
    nextId := 11,
    counter := 20 }

/-- An inbound pipelined `apply`: invoke token 1 with arguments 1 and 2,
store the result under destination token 9, correlation token 5. -/
def demoApplyMsg : WireMsg :=
  { type := .apply, token := some 5, from_ := some 1, into := some 9,
    args := some [.prim (.num 1), .prim (.num 2)] }

/-- An inbound `apply` naming an unregistered source token (99), with
correlation token 7 — scenario C of the spec. -/
def demoFailMsg : WireMsg :=
  { type := .apply, token := some 7, from_ := some 99, args := some [] }

/-- A handler with one pending request under correlation token 5, whose
settle-pair targets promise 0. -/
def demoPendingState : HState :=
  { resolvers := [(5, 0)],
    promises := [(0, .pending)],
    nextId := 1,
    counter := 30 }

/-- A handler owning token 1 bound to a plain (non-callable) object. -/
def demoRegistryState : HState :=
  { key2Obj := [(1, 0)],
    promises := [(0, .resolved (.obj 10))],
    heap := [(10, ⟨.plain, [(.str "x", .num 42)]⟩)],
    nextId := 11 }

/-- A handler that has created one shadow proxy (heap address 0). -/
def demoShadowState : HState :=
  (runM (resolveRemote 3 true) emptyState).2

/-- The same handler after `dispose()`: the proxy is revoked and every
registry field is deleted. -/
def demoDisposedState : HState :=
  (runM dispose demoShadowState).2

/-- A handler in which heap address 0 is an Error instance that has been
marked solid. -/
def solidErrorState : HState :=
  { heap := [(0, ⟨.errObj (some "Error") "boom" none, []⟩)],
    solidObjects := [.obj 0],
    nextId := 1 }

/-- A handler in which heap address 0 is a plain object marked solid. -/
def solidPlainState : HState :=
  { heap := [(0, ⟨.plain, []⟩)],
    solidObjects := [.obj 0],
    nextId := 1 }

/-! ## Theorems -/

theorem runM_pure {α : Type} (a : α) (s : HState) : runM (pure a : M α) s = (.ok a, s) := rfl

theorem runM_bind {α β : Type} (x : M α) (f : α → M β) (s : HState) :
    runM (x >>= f) s =
      (match runM x s with
       | (.ok a, s₁) => runM (f a) s₁
       | (.error e, s₁) => (.error e, s₁)) := by
  unfold runM
  rcases h : (ExceptT.run x).run s with ⟨r, s₁⟩
  simp only [StateT.run, ExceptT.run] at h
  rcases r with e | a <;>
    simp [Bind.bind, ExceptT.bind, ExceptT.bindCont, ExceptT.mk, ExceptT.run,
          StateT.bind, StateT.run, Pure.pure, StateT.pure, h]

theorem runM_get (s : HState) : runM (get : M HState) s = (.ok s, s) := rfl
theorem runM_set (s' s : HState) : runM (set s' : M Unit) s = (.ok (), s') := rfl
theorem runM_modify (f : HState → HState) (s : HState) :
    runM (modify f : M Unit) s = (.ok (), f s) := rfl

theorem runM_throw {α : Type} (e : Halt) (s : HState) :
    runM (throw e : M α) s = (.error e, s) := rfl

theorem runM_throwErr {α : Type} (n m : String) (s : HState) :
    runM (throwErr n m : M α) s = (.error (.err (.builtin n m)), s) := rfl

theorem runM_tryCatch {α : Type} (x : M α) (h : Halt → M α) (s : HState) :
    runM (tryCatch x h) s =
      (match runM x s with
       | (.ok a, s₁) => (.ok a, s₁)
       | (.error e, s₁) => runM (h e) s₁) := by
  unfold runM
  rcases hx : (ExceptT.run x).run s with ⟨r, s₁⟩
  simp only [StateT.run, ExceptT.run] at hx
  rcases r with e | a <;>
    simp [tryCatch, tryCatchThe, MonadExceptOf.tryCatch, ExceptT.tryCatch,
          ExceptT.mk, ExceptT.run, StateT.run, Bind.bind, StateT.bind, Pure.pure,
          StateT.pure, hx]

theorem extRF_of_eq {s s' : HState} (h : s'.outbox = s.outbox) : ExtRF s s' :=
  ⟨[], by simp [h], rfl⟩

theorem extRF_trans {s t u : HState} (h₁ : ExtRF s t) (h₂ : ExtRF t u) : ExtRF s u := by
  obtain ⟨es₁, he₁, hf₁⟩ := h₁
  obtain ⟨es₂, he₂, hf₂⟩ := h₂
  exact ⟨es₁ ++ es₂, by simp [he₂, he₁], by simp [List.filter_append, hf₁, hf₂]⟩

theorem extRF_append {s s' : HState} (es : List Event)
    (h : s'.outbox = s.outbox ++ es) (hf : es.filter isReplyEvent = []) : ExtRF s s' :=
  ⟨es, h, hf⟩

theorem rf_bind {α β : Type} {x : M α} {f : α → M β}
    (hx : RF x) (hf : ∀ a, RF (f a)) : RF (x >>= f) := by
  intro s
  rw [runM_bind]
  rcases h : runM x s with ⟨r, s₁⟩
  have h1 : ExtRF s s₁ := by
    have h2 := hx s
    rw [h] at h2
    exact h2
  rcases r with e | a
  · exact h1
  · exact extRF_trans h1 (hf a s₁)

theorem rf_pure {α : Type} (a : α) : RF (pure a : M α) :=
  fun _ => extRF_of_eq rfl

theorem rf_throw {α : Type} (e : Halt) : RF (throw e : M α) :=
  fun _ => extRF_of_eq rfl

theorem rf_throwErr {α : Type} (n m : String) : RF (throwErr n m : M α) :=
  fun _ => extRF_of_eq rfl

theorem rf_aquireToken : RF aquireToken :=
  fun _ => extRF_of_eq rfl

theorem rf_get : RF (get : M HState) :=
  fun _ => extRF_of_eq rfl

theorem rf_modify {f : HState → HState} (h : ∀ s, (f s).outbox = s.outbox) :
    RF (modify f) :=
  fun s => extRF_of_eq (by rw [runM_modify]; exact h s)

theorem rf_send {m : WireMsg} (hm : isReplyType m.type = false) : RF (send m) := by
  intro s
  exact extRF_append [.sent m] rfl (by simp [isReplyEvent, hm])

theorem rf_newPromiseResolved (v : JSVal) : RF (newPromiseResolved v) :=
  fun _ => extRF_of_eq rfl

theorem rf_newPromisePending : RF newPromisePending :=
  fun _ => extRF_of_eq rfl

theorem rf_promResolve (v : JSVal) : RF (promResolve v) := by
  intro s
  unfold promResolve
  split
  · exact extRF_of_eq rfl
  · exact rf_newPromiseResolved _ s

theorem rf_storeLocal (id : Option Nat) (v : JSVal) : RF (storeLocal id v) := by
  intro s
  unfold storeLocal
  cases id with
  | none => exact extRF_of_eq rfl
  | some i =>
    simp only [runM_bind]
    rcases h : runM (promResolve v) s with ⟨r, s₁⟩
    have h1 : ExtRF s s₁ := by
      have h2 := rf_promResolve v s
      rw [h] at h2
      exact h2
    rcases r with e | pid
    · exact h1
    · refine extRF_trans h1 ?_
      simp only [runM_bind, runM_modify]
      split
      · exact extRF_append [.stored i v] rfl rfl
      · exact extRF_append [.stored i v] rfl rfl

theorem rf_registerToken (v : JSVal) (tok : Option Nat) : RF (registerToken v tok) := by
  intro s
  unfold registerToken
  simp only [runM_bind, runM_get]
  split
  · exact extRF_of_eq rfl
  · split
    · exact extRF_of_eq rfl
    · split
      · exact rf_bind rf_aquireToken (fun i => rf_bind (rf_storeLocal _ _) (fun _ => rf_pure _)) s
      · exact rf_bind (rf_pure _) (fun i => rf_bind (rf_storeLocal _ _) (fun _ => rf_pure _)) s

theorem rf_setSolid (v : JSVal) : RF (setSolid v) := by
  intro s
  unfold setSolid
  split
  · simp only [runM_bind, runM_get]
    split
    · exact extRF_of_eq rfl
    · exact extRF_of_eq rfl
  · exact extRF_of_eq rfl

theorem rf_isSolid (v : JSVal) : RF (isSolid v) := by
  intro s
  unfold isSolid
  split
  · simp only [runM_bind, runM_get]
    split
    · exact extRF_of_eq rfl
    · exact extRF_of_eq rfl
  · exact extRF_of_eq rfl

theorem rf_fromSymbol (a : Nat) : RF (fromSymbol a) := by
  intro s
  unfold fromSymbol
  simp only [runM_bind, runM_get]
  split
  · exact extRF_of_eq rfl
  · split
    · exact extRF_of_eq rfl
    · refine rf_bind rf_aquireToken (fun k => rf_bind (rf_modify ?_) (fun _ => rf_pure _)) s
      intro s'
      rfl

theorem rf_toSymbol (k : MsgKey) : RF (toSymbol k) := by
  intro s
  unfold toSymbol
  cases k with
  | str str =>
    simp only [runM_bind, runM_get]
    split
    · exact extRF_of_eq rfl
    · exact extRF_of_eq rfl
  | num n =>
    simp only [runM_bind, runM_get]
    split
    · exact extRF_of_eq rfl
    · exact extRF_of_eq rfl

theorem rf_sendAndWait {m : WireMsg} (hm : isReplyType m.type = false) :
    RF (sendAndWait m) := by
  refine rf_bind rf_newPromisePending (fun pid => rf_bind rf_aquireToken
    (fun tok => rf_bind (rf_modify ?_)
      (fun _ => rf_bind (rf_send hm) (fun _ => rf_pure _))))
  intro s'
  rfl

theorem rf_createShadow (tok : Nat) : RF (createShadow tok) :=
  fun _ => extRF_of_eq rfl

theorem rf_resolveRemote (tok : Nat) (shadowed : Bool) : RF (resolveRemote tok shadowed) := by
  intro s
  unfold resolveRemote
  split
  · exact rf_createShadow tok s
  · simp only [runM_bind, runM_get]
    split
    · exact extRF_of_eq rfl
    · refine rf_bind (rf_sendAndWait (by simp [isReplyType]))
        (fun pid => rf_bind (rf_modify ?_) (fun _ => rf_pure _)) s
      intro s'
      rfl

theorem rf_pack (v : JSVal) (clone : Bool) : RF (pack v clone) := by
  intro s
  unfold pack
  split
  · exact rf_bind (rf_fromSymbol _) (fun _ => rf_pure _) s
  all_goals try exact rf_pure _ s
  all_goals
    simp only [runM_bind, runM_get]
    split
    · exact extRF_of_eq rfl
    · split
      · exact extRF_of_eq rfl
      · refine rf_bind (rf_isSolid _) (fun sld => ?_) s
        intro s₁
        split
        · exact rf_pure _ s₁
        · exact rf_bind (rf_isSolid _) (fun _ => rf_bind (rf_registerToken _ _)
            (fun _ => rf_pure _)) s₁

theorem rf_unpack (p : Packed) : RF (unpack p) := by
  intro s
  unfold unpack
  split
  · exact rf_bind (rf_toSymbol _) (fun _ => rf_pure _) s
  · exact rf_pure _ s
  · exact rf_resolveRemote _ _ s
  · simp only [runM_bind, runM_get]
    exact extRF_of_eq rfl
  · exact rf_pure _ s

theorem rf_packOfThrown (e : JSErr) : RF (packOfThrown e) := by
  intro s
  unfold packOfThrown
  split
  · exact rf_pure _ s
  · exact rf_pack _ _ s

theorem rf_awaitStrict (v : JSVal) : RF (awaitStrict v) := by
  intro s
  unfold awaitStrict
  split
  · simp only [runM_bind, runM_get]
    split
    · exact extRF_of_eq rfl
    · exact extRF_of_eq rfl
    · exact extRF_of_eq rfl
  · exact rf_pure _ s

theorem rf_boxValue (v : JSVal) : RF (boxValue v) :=
  fun _ => extRF_of_eq rfl

theorem rf_resolveLocal (id : Option Nat) (ty : TyArg) : RF (resolveLocal id ty) := by
  intro s
  unfold resolveLocal
  split
  · split
    · exact rf_throwErr _ _ s
    · exact rf_pure _ s
  · simp only [runM_bind, runM_get]
    split
    · split
      · exact extRF_of_eq rfl
      · exact extRF_of_eq rfl
    · refine rf_bind (rf_awaitStrict _) (fun res => rf_bind rf_get
        (fun s₂ => ?_)) _
      intro s₃
      split
      · exact rf_throwErr _ _ s₃
      · split
        · exact rf_pure _ s₃
        · exact rf_bind (rf_boxValue _) (fun _ => rf_pure _) s₃

theorem rf_mapUnpack (l : List Packed) : RF (mapUnpack l) := by
  induction l with
  | nil => exact rf_pure _
  | cons p t ih =>
    exact rf_bind (rf_unpack p) (fun v => rf_bind ih (fun vs => rf_pure _))

theorem rf_awaitNonHandlers (l : List JSVal) : RF (awaitNonHandlers l) := by
  induction l with
  | nil => exact rf_pure _
  | cons v t ih =>
    refine rf_bind rf_get (fun s => ?_)
    intro s₁
    split
    · exact rf_bind ih (fun rest => rf_pure _) s₁
    · exact rf_bind (rf_awaitStrict _) (fun w => rf_bind ih (fun rest => rf_pure _)) s₁

theorem rf_unpackAll (src : List Packed) : RF (unpackAll src) :=
  rf_bind (rf_mapUnpack src) (fun vs => rf_awaitNonHandlers vs)

theorem rf_resolveKey (m : WireMsg) : RF (resolveKey m) := by
  intro s
  unfold resolveKey
  split
  · exact rf_throwErr _ _ s
  · split
    · exact rf_bind (rf_toSymbol _) (fun _ => rf_pure _) s
    · split
      · exact rf_pure _ s
      · exact rf_pure _ s

theorem rf_checkRevoked (a : Nat) (op : String) : RF (checkRevoked a op) := by
  refine rf_bind rf_get (fun s => ?_)
  intro s₁
  split
  · exact rf_throwErr _ _ s₁
  · exact rf_pure _ s₁

theorem rf_msgKeyOf (k : JSKey) : RF (msgKeyOf k) := by
  intro s
  unfold msgKeyOf
  split
  · exact rf_bind (rf_fromSymbol _) (fun _ => rf_pure _) s
  · exact rf_pure _ s
  · exact rf_pure _ s

theorem rf_hGetTrap (a tok : Nat) (k : JSKey) : RF (hGetTrap a tok k) := by
  refine rf_bind (rf_checkRevoked _ _) (fun _ => ?_)
  intro s
  split
  · exact rf_pure _ s
  · exact rf_bind rf_aquireToken (fun into => rf_bind (rf_msgKeyOf _)
      (fun km => rf_bind (rf_send (by simp [isReplyType]))
        (fun _ => rf_resolveRemote _ _))) s

theorem rf_hSetTrap (a tok : Nat) (k : JSKey) (v : JSVal) : RF (hSetTrap a tok k v) := by
  refine rf_bind (rf_checkRevoked _ _) (fun _ => ?_)
  intro s
  split
  · exact rf_pure _ s
  · exact rf_bind (rf_msgKeyOf _) (fun km => rf_bind (rf_pack _ _)
      (fun pv => rf_bind (rf_send (by simp [isReplyType])) (fun _ => rf_pure _))) s

theorem rf_hDeleteTrap (a tok : Nat) (k : JSKey) : RF (hDeleteTrap a tok k) := by
  refine rf_bind (rf_checkRevoked _ _) (fun _ => ?_)
  intro s
  split
  · exact rf_pure _ s
  · exact rf_bind (rf_msgKeyOf _) (fun km =>
      rf_bind (rf_send (by simp [isReplyType])) (fun _ => rf_pure _)) s

theorem rf_mapPack (l : List JSVal) : RF (mapPack l) := by
  induction l with
  | nil => exact rf_pure _
  | cons v t ih =>
    exact rf_bind (rf_pack v false) (fun p => rf_bind ih (fun ps => rf_pure _))

theorem rf_hApplyTrap (a tok : Nat) (thisArg : JSVal) (args : List JSVal) :
    RF (hApplyTrap a tok thisArg args) :=
  rf_bind (rf_checkRevoked _ _) (fun _ => rf_bind rf_aquireToken
    (fun into => rf_bind (rf_pack _ _) (fun pThis => rf_bind (rf_mapPack _)
      (fun pArgs => rf_bind (rf_send (by simp [isReplyType]))
        (fun _ => rf_resolveRemote _ _)))))

theorem rf_hConstructTrap (a tok : Nat) (args : List JSVal) :
    RF (hConstructTrap a tok args) :=
  rf_bind (rf_checkRevoked _ _) (fun _ => rf_bind rf_aquireToken
    (fun into => rf_bind (rf_mapPack _)
      (fun pArgs => rf_bind (rf_send (by simp [isReplyType]))
        (fun _ => rf_resolveRemote _ _))))

theorem rf_reflectGet (target : Option JSVal) (k : JSKey) : RF (reflectGet target k) := by
  intro s
  unfold reflectGet
  split
  · refine rf_bind rf_get (fun s₁ => ?_) s
    intro s₂
    split
    · split
      · exact rf_hGetTrap _ _ _ s₂
      · exact rf_pure _ s₂
    · exact rf_pure _ s₂
  · exact rf_pure _ s
  · exact rf_throwErr _ _ s

theorem rf_reflectSet (target : Option JSVal) (k : JSKey) (v : JSVal) :
    RF (reflectSet target k v) := by
  intro s
  unfold reflectSet
  split
  · simp only [runM_bind, runM_get]
    split
    · split
      · exact rf_bind (rf_hSetTrap _ _ _ _) (fun _ => rf_pure _) s
      · simp only [runM_set]
        exact extRF_of_eq rfl
    · exact rf_pure _ s
  · exact rf_pure _ s
  · exact rf_throwErr _ _ s

theorem rf_reflectDelete (target : Option JSVal) (k : JSKey) :
    RF (reflectDelete target k) := by
  intro s
  unfold reflectDelete
  split
  · simp only [runM_bind, runM_get]
    split
    · split
      · exact rf_bind (rf_hDeleteTrap _ _ _) (fun _ => rf_pure _) s
      · simp only [runM_set]
        exact extRF_of_eq rfl
    · exact rf_pure _ s
  · exact rf_pure _ s
  · exact rf_throwErr _ _ s

theorem rf_reflectApply (target : Option JSVal) (thisArg : JSVal) (args : List JSVal) :
    RF (reflectApply target thisArg args) := by
  intro s
  unfold reflectApply
  split
  · refine rf_bind rf_get (fun s₁ => ?_) s
    intro s₂
    split
    · split
      · split
        · exact rf_pure _ s₂
        · exact rf_throw _ s₂
      · exact rf_hApplyTrap _ _ _ _ s₂
      · exact rf_throwErr _ _ s₂
    · exact rf_throwErr _ _ s₂
  · exact rf_throwErr _ _ s

theorem rf_reflectConstruct (target : Option JSVal) (args : List JSVal) :
    RF (reflectConstruct target args) := by
  intro s
  unfold reflectConstruct
  split
  · refine rf_bind rf_get (fun s₁ => ?_) s
    intro s₂
    split
    · split
      · split
        · exact rf_pure _ s₂
        · exact rf_throw _ s₂
      · exact rf_hConstructTrap _ _ _ s₂
      · exact rf_throwErr _ _ s₂
    · exact rf_throwErr _ _ s₂
  · exact rf_throwErr _ _ s

theorem rf_popResolver (token : Option Nat) : RF (popResolver token) := by
  intro s
  unfold popResolver
  split
  · exact rf_pure _ s
  · simp only [runM_bind, runM_get]
    split
    · exact rf_pure _ s
    · simp only [runM_bind, runM_set, runM_pure]
      exact extRF_of_eq rfl

theorem rf_settle (pid : Nat) (o : Outcome) : RF (settle pid o) := by
  refine rf_modify ?_
  intro s
  rfl

theorem rf_evalBranch (data : WireMsg) : RF (evalBranch data) := by
  intro s
  unfold evalBranch
  split
  · exact rf_bind (rf_resolveLocal _ _) (fun f => rf_bind (rf_resolveKey _)
      (fun k => rf_bind (rf_reflectGet _ _) (fun v => rf_pure _))) s
  · exact rf_bind (rf_resolveLocal _ _) (fun f => rf_bind (rf_unpackAll _)
      (fun vs => rf_bind (rf_resolveKey _) (fun k => rf_bind (rf_reflectSet _ _ _)
        (fun _ => rf_pure _)))) s
  · exact rf_bind (rf_resolveLocal _ _) (fun f => rf_bind (rf_resolveKey _)
      (fun k => rf_bind (rf_reflectDelete _ _) (fun _ => rf_pure _))) s
  · refine rf_bind (rf_resolveLocal _ _) (fun f => ?_) s
    intro s₁
    split
    · exact rf_throwErr _ _ s₁
    · exact rf_bind (rf_unpackAll _) (fun unpacked => rf_bind (rf_reflectApply _ _ _)
        (fun v => rf_pure _)) s₁
  · refine rf_bind (rf_resolveLocal _ _) (fun f => ?_) s
    intro s₁
    split
    · exact rf_throwErr _ _ s₁
    · exact rf_bind (rf_unpackAll _) (fun unpacked => rf_bind (rf_reflectConstruct _ _)
        (fun v => rf_pure _)) s₁
  · exact rf_bind (rf_resolveLocal _ _) (fun v => rf_pure _) s
  · refine rf_bind (rf_popResolver _) (fun r => ?_) s
    intro s₁
    split
    · exact rf_pure _ s₁
    · exact rf_bind (rf_unpack _) (fun v => rf_bind (rf_settle _ _)
        (fun _ => rf_pure _)) s₁
  · refine rf_bind (rf_popResolver _) (fun r => ?_) s
    intro s₁
    split
    · exact rf_pure _ s₁
    · exact rf_bind (rf_unpack _) (fun v => rf_bind (rf_settle _ _)
        (fun _ => rf_pure _)) s₁

/-! ### key2Obj monotonicity -/

theorem alistGet_set_isSome {κ α : Type} [DecidableEq κ] {l : List (κ × α)} {t : κ}
    (k : κ) (v : α) (h : (alistGet t l).isSome = true) :
    (alistGet t (alistSet k v l)).isSome = true := by
  unfold alistSet alistGet
  split <;> simp [h]

theorem k2o_bind {α β : Type} {x : M α} {f : α → M β}
    (hx : K2O x) (hf : ∀ a, K2O (f a)) : K2O (x >>= f) := by
  intro s t ht
  rw [runM_bind]
  rcases h : runM x s with ⟨r, s₁⟩
  have h1 : (alistGet t s₁.key2Obj).isSome = true := by
    have h2 := hx s t ht
    rw [h] at h2
    exact h2
  rcases r with e | a
  · exact h1
  · exact hf a s₁ t h1

theorem k2o_of_preserve {α : Type} {x : M α}
    (h : ∀ s, (runM x s).2.key2Obj = s.key2Obj) : K2O x := by
  intro s t ht
  rw [h s]
  exact ht

theorem k2o_pure {α : Type} (a : α) : K2O (pure a : M α) :=
  k2o_of_preserve (fun _ => rfl)

theorem k2o_throwErr {α : Type} (n m : String) : K2O (throwErr n m : M α) :=
  k2o_of_preserve (fun _ => rfl)

theorem k2o_aquireToken : K2O aquireToken :=
  k2o_of_preserve (fun _ => rfl)

theorem k2o_send (m : WireMsg) : K2O (send m) :=
  k2o_of_preserve (fun _ => rfl)

theorem k2o_newPromiseResolved (v : JSVal) : K2O (newPromiseResolved v) :=
  k2o_of_preserve (fun _ => rfl)

theorem k2o_promResolve (v : JSVal) : K2O (promResolve v) := by
  intro s t ht
  unfold promResolve
  split
  · exact ht
  · exact k2o_newPromiseResolved _ s t ht

theorem k2o_storeLocal (id : Option Nat) (v : JSVal) : K2O (storeLocal id v) := by
  intro s t ht
  unfold storeLocal
  cases id with
  | none => exact ht
  | some i =>
    simp only [runM_bind]
    rcases h : runM (promResolve v) s with ⟨r, s₁⟩
    have h1 : (alistGet t s₁.key2Obj).isSome = true := by
      have h2 := k2o_promResolve v s t ht
      rw [h] at h2
      exact h2
    rcases r with e | pid
    · exact h1
    · simp only [runM_bind, runM_modify]
      split
      · exact alistGet_set_isSome _ _ h1
      · exact alistGet_set_isSome _ _ h1

theorem k2o_isSolid (v : JSVal) : K2O (isSolid v) := by
  intro s t ht
  unfold isSolid
  split
  · simp only [runM_bind, runM_get]
    split
    · exact ht
    · exact ht
  · exact ht

theorem k2o_fromSymbol (a : Nat) : K2O (fromSymbol a) := by
  intro s t ht
  unfold fromSymbol
  simp only [runM_bind, runM_get]
  split
  · exact ht
  · split
    · exact ht
    · simp only [runM_bind, runM_get, runM_set, runM_modify, runM_pure]
      exact ht

theorem k2o_registerToken (v : JSVal) (tok : Option Nat) : K2O (registerToken v tok) := by
  intro s t ht
  unfold registerToken
  simp only [runM_bind, runM_get]
  split
  · exact ht
  · split
    · exact ht
    · split
      · exact k2o_bind k2o_aquireToken (fun i => k2o_bind (k2o_storeLocal _ _)
          (fun _ => k2o_pure _)) s t ht
      · exact k2o_bind (k2o_pure _) (fun i => k2o_bind (k2o_storeLocal _ _)
          (fun _ => k2o_pure _)) s t ht

theorem k2o_pack (v : JSVal) (clone : Bool) : K2O (pack v clone) := by
  intro s t ht
  unfold pack
  split
  · exact k2o_bind (k2o_fromSymbol _) (fun _ => k2o_pure _) s t ht
  all_goals try exact ht
  all_goals
    simp only [runM_bind, runM_get]
    split
    · exact ht
    · split
      · exact ht
      · refine k2o_bind (k2o_isSolid _) (fun sld => ?_) s t ht
        intro s₁ t₁ ht₁
        split
        · exact ht₁
        · exact k2o_bind (k2o_isSolid _) (fun _ => k2o_bind (k2o_registerToken _ _)
            (fun _ => k2o_pure _)) s₁ t₁ ht₁

/-! ### Support lemmas for the dispatcher theorems -/

theorem runM_send (m : WireMsg) (s : HState) :
    runM (send m) s = (.ok (), { s with outbox := s.outbox ++ [.sent m] }) := rfl

theorem succ_imp_reply {e : Event} (h : isSuccessSend e = true) : isReplyEvent e = true := by
  cases e with
  | sent m =>
    cases m
    rename_i ty _ _ _ _ _ _ _ _ _
    cases ty <;> simp_all [isSuccessSend, isReplyEvent, isReplyType]
  | stored _ _ => simp [isSuccessSend] at h

theorem noReply_noSuccess {es : List Event} (h : es.filter isReplyEvent = []) :
    hasSuccessSend es = false := by
  rw [List.filter_eq_nil_iff] at h
  unfold hasSuccessSend
  rw [List.any_eq_false]
  intro e he
  intro hc
  exact h e he (succ_imp_reply hc)

theorem hasSuccessSend_append (a b : List Event) :
    hasSuccessSend (a ++ b) = (hasSuccessSend a || hasSuccessSend b) := by
  simp [hasSuccessSend]

theorem promResolve_run (v : JSVal) (s : HState) :
    ∃ pid s₁, runM (promResolve v) s = (.ok pid, s₁) ∧
      s₁.outbox = s.outbox ∧ s₁.key2Obj = s.key2Obj := by
  unfold promResolve
  cases v <;> exact ⟨_, _, rfl, rfl, rfl⟩

theorem storeLocal_some_run (i : Nat) (v : JSVal) (s : HState) :
    ∃ s', runM (storeLocal (some i) v) s = (.ok (), s') ∧
      s'.outbox = s.outbox ++ [.stored i v] ∧
      (alistGet i s'.key2Obj).isSome = true := by
  obtain ⟨pid, s₁, h, ho, hk⟩ := promResolve_run v s
  unfold storeLocal
  simp only [runM_bind, h, runM_modify]
  split
  · exact ⟨_, rfl, by simp [ho], by simp [alistGet, alistSet]⟩
  · exact ⟨_, rfl, by simp [ho], by simp [alistGet, alistSet]⟩


/-- C2: for every inbound `prepare`, `assign`, `delete`, `apply`, `construct`
or `resolve` message carrying a destination token, whenever the dispatcher
emits a `success` reply, the computed result was stored under the destination
token strictly before any reply was sent (the events preceding the store are
reply-free), and afterwards the destination token is bound in the local
registry, so a pipelined follow-up message naming it as source finds a bound
value. -/
theorem spec_c2_store_before_reply (data : WireMsg) (s : HState) (t : Nat)
    (_hk : data.type ∈ [MsgType.prepare, MsgType.assign, MsgType.delete,
                        MsgType.apply, MsgType.construct, MsgType.resolve])
    (hi : data.into = some t)
    (hok : (runM (onReceive data) s).1 = Except.ok ())
    (hs : hasSuccessSend ((runM (onReceive data) s).2.outbox.drop s.outbox.length) = true) :
    (∃ pre post v,
      (runM (onReceive data) s).2.outbox.drop s.outbox.length
        = pre ++ Event.stored t v :: post ∧ pre.filter isReplyEvent = []) ∧
    (alistGet t (runM (onReceive data) s).2.key2Obj).isSome = true := by
  rcases hb : runM (evalBranch data) s with ⟨rb, sb⟩
  have hrfb : ExtRF s sb := by
    have h2 := rf_evalBranch data s
    rw [hb] at h2
    exact h2
  obtain ⟨esb, hesb, hfb⟩ := hrfb
  rcases rb with e | vc
  · -- the branch threw or suspended: no success reply is ever sent
    cases e with
    | blocked =>
      have hR : runM (onReceive data) s = (Except.error Halt.blocked, sb) := by
        unfold onReceive
        rw [runM_tryCatch, runM_bind, hb]
        rfl
      rw [hR] at hok
      simp at hok
    | err je =>
      cases htok : data.token with
      | none =>
        have hR : runM (onReceive data) s = (Except.ok (), sb) := by
          unfold onReceive
          rw [runM_tryCatch, runM_bind, hb, htok]
          rfl
        rw [hR] at hs
        simp only at hs
        rw [hesb, List.drop_left] at hs
        rw [noReply_noSuccess hfb] at hs
        exact absurd hs (by simp)
      | some tok =>
        rcases hp : runM (packOfThrown je) sb with ⟨rp, sp⟩
        have hrfp : ExtRF sb sp := by
          have h2 := rf_packOfThrown je sb
          rw [hp] at h2
          exact h2
        obtain ⟨esp, hesp, hfp⟩ := hrfp
        rcases rp with e₂ | pr
        · have hR : runM (onReceive data) s = (Except.error e₂, sp) := by
            unfold onReceive
            rw [runM_tryCatch, runM_bind, hb, htok]
            simp only [runM_bind, hp]
          rw [hR] at hok
          simp at hok
        · have hR : runM (onReceive data) s =
              (Except.ok (), { sp with outbox := sp.outbox ++
                [.sent { type := .failed, token := some tok, reason := pr }] }) := by
            unfold onReceive
            rw [runM_tryCatch, runM_bind, hb, htok]
            simp only [runM_bind, hp, runM_send]
          rw [hR] at hs
          simp only at hs
          rw [hesp, hesb, List.append_assoc, List.append_assoc, List.drop_left] at hs
          rw [← List.append_assoc, hasSuccessSend_append, hasSuccessSend_append] at hs
          rw [noReply_noSuccess hfb, noReply_noSuccess hfp] at hs
          simp [hasSuccessSend, isSuccessSend] at hs
  · -- normal branch completion: the into-store happens, then the reply
    rcases vc with ⟨v, c⟩
    obtain ⟨s₂, hst, hso, hsk⟩ := storeLocal_some_run t v sb
    cases htok : data.token with
    | none =>
      have hR : runM (onReceive data) s = (Except.ok (), s₂) := by
        unfold onReceive
        rw [runM_tryCatch, runM_bind, hb, hi, htok]
        simp only [runM_bind, hst]
        rfl
      rw [hR] at hs
      simp only at hs
      rw [hso, hesb, List.append_assoc, List.drop_left] at hs
      rw [hasSuccessSend_append, noReply_noSuccess hfb] at hs
      simp [hasSuccessSend, isSuccessSend] at hs
    | some tok =>
      rcases hp : runM (pack v c) s₂ with ⟨rp, sp⟩
      have hrfp : ExtRF s₂ sp := by
        have h2 := rf_pack v c s₂
        rw [hp] at h2
        exact h2
      obtain ⟨esp, hesp, hfp⟩ := hrfp
      rcases rp with e₂ | pv
      · -- the reply pack step threw: the failed-handler runs, still no success
        cases e₂ with
        | blocked =>
          have hR : runM (onReceive data) s = (Except.error Halt.blocked, sp) := by
            unfold onReceive
            rw [runM_tryCatch, runM_bind, hb, hi, htok]
            simp only [runM_bind, hst, hp]
            rfl
          rw [hR] at hok
          simp at hok
        | err je =>
          rcases hp₂ : runM (packOfThrown je) sp with ⟨rp₂, sp₂⟩
          have hrfp₂ : ExtRF sp sp₂ := by
            have h2 := rf_packOfThrown je sp
            rw [hp₂] at h2
            exact h2
          obtain ⟨esp₂, hesp₂, hfp₂⟩ := hrfp₂
          rcases rp₂ with e₃ | pr
          · have hR : runM (onReceive data) s = (Except.error e₃, sp₂) := by
              unfold onReceive
              rw [runM_tryCatch, runM_bind, hb, hi, htok]
              simp only [runM_bind, hst, hp, hp₂]
            rw [hR] at hok
            simp at hok
          · have hR : runM (onReceive data) s =
                (Except.ok (), { sp₂ with outbox := sp₂.outbox ++
                  [.sent { type := .failed, token := some tok, reason := pr }] }) := by
              unfold onReceive
              rw [runM_tryCatch, runM_bind, hb, hi, htok]
              simp only [runM_bind, hst, hp, hp₂, runM_send]
            rw [hR] at hs
            simp only at hs
            rw [hesp₂, hesp, hso, hesb] at hs
            rw [List.append_assoc, List.append_assoc, List.append_assoc,
                List.append_assoc, List.drop_left] at hs
            rw [show esb ++ ([Event.stored t v] ++ (esp ++ (esp₂ ++
                  [Event.sent { type := .failed, token := some tok, reason := pr }])))
                = esb ++ [Event.stored t v] ++ esp ++ esp₂ ++
                  [Event.sent { type := .failed, token := some tok, reason := pr }] by
                simp [List.append_assoc]] at hs
            rw [hasSuccessSend_append, hasSuccessSend_append, hasSuccessSend_append,
                hasSuccessSend_append] at hs
            rw [noReply_noSuccess hfb, noReply_noSuccess hfp, noReply_noSuccess hfp₂] at hs
            simp [hasSuccessSend, isSuccessSend] at hs
      · -- the success path: stored-before-reply and the binding persists
        have hR : runM (onReceive data) s =
            (Except.ok (), { sp with outbox := sp.outbox ++
              [.sent { type := .success, token := some tok, value := pv }] }) := by
          unfold onReceive
          rw [runM_tryCatch, runM_bind, hb, hi, htok]
          simp only [runM_bind, hst, hp, runM_send]
        rw [hR]
        constructor
        · refine ⟨esb, esp ++ [.sent { type := .success, token := some tok, value := pv }],
            v, ?_, hfb⟩
          simp only
          rw [hesp, hso, hesb]
          rw [List.append_assoc, List.append_assoc, List.append_assoc, List.drop_left]
          simp [List.append_assoc]
        · simp only
          have hk₂ : (alistGet t sp.key2Obj).isSome = true := by
            have h2 := k2o_pack v c s₂ t hsk
            rw [hp] at h2
            exact h2
          exact hk₂


/-- Witness for C2: a pipelined `apply` into destination token 9 on a live
handler stores the result before the `success` reply and leaves token 9
bound. -/
theorem spec_c2_witness :
    (∃ pre post v,
      (runM (onReceive demoApplyMsg) demoApplyState).2.outbox.drop
          demoApplyState.outbox.length
        = pre ++ Event.stored 9 v :: post ∧ pre.filter isReplyEvent = []) ∧
    (alistGet 9 (runM (onReceive demoApplyMsg) demoApplyState).2.key2Obj).isSome
        = true :=
  spec_c2_store_before_reply demoApplyMsg demoApplyState 9 (by decide) rfl rfl rfl


/-- C1 (code bug): the dispatcher is not terminal on `success`/`failed`
messages.  Processing an inbound `success` message that carries a correlation
token (here token 5, with no pending entry — e.g. a duplicate reply) makes
the dispatcher send a `success` echo reply of its own, because the
`success`/`failed` switch cases fall through to the common
`if (data.token != null) send(success)` tail.  The spec's dispatcher table marks
these branches terminal with no reply. -/
theorem spec_c1_success_echo_bug :
    runM (onReceive { type := .success, token := some 5 }) emptyState =
      (.ok (), { emptyState with outbox :=
        [.sent { type := .success, token := some 5, value := .prim .undef }] }) ∧
    hasSuccessSend (runM (onReceive { type := .success, token := some 5 })
        emptyState).2.outbox = true :=
  ⟨rfl, rfl⟩

/-- Counterexample for C4 as stated: resolving the same token (7) twice with
the shadow flag on the same endpoint yields two distinct proxy instances
(heap addresses 0 and 1), not an identical cached handle. -/
theorem spec_c4_counterexample :
    (runM (resolveRemote 7 true) emptyState).1 = .ok (.obj 0) ∧
    (runM (resolveRemote 7 true)
        (runM (resolveRemote 7 true) emptyState).2).1 = .ok (.obj 1) ∧
    (JSVal.obj 0 ≠ JSVal.obj 1) :=
  ⟨rfl, rfl, by decide⟩

/-- C4 (amended): shadowed resolution is not cached — each `resolveRemote`
with the shadow flag allocates a fresh revocable proxy and registers its
revoker, so resolving the same token twice yields two distinct handle
instances. -/
theorem spec_c4_amended (s : HState) (tok : Nat) (_hlive : s.disposed = false) :
    runM (resolveRemote tok true) s =
      (.ok (.obj s.nextId),
       { s with nextId := s.nextId + 1,
                heap := alistSet s.nextId ⟨.proxy tok, []⟩ s.heap,
                disposableCallbacks := s.disposableCallbacks ++ [s.nextId] }) ∧
    (runM (resolveRemote tok true) (runM (resolveRemote tok true) s).2).1
        = .ok (.obj (s.nextId + 1)) ∧
    (JSVal.obj (s.nextId + 1) ≠ JSVal.obj s.nextId) :=
  ⟨rfl, rfl, by simp⟩

/-- Witness for C4 (amended) at token 7 on a fresh handler. -/
theorem spec_c4_witness :
    runM (resolveRemote 7 true) emptyState =
      (.ok (.obj emptyState.nextId),
       { emptyState with
           nextId := emptyState.nextId + 1,
           heap := alistSet emptyState.nextId ⟨.proxy 7, []⟩ emptyState.heap,
           disposableCallbacks := emptyState.disposableCallbacks ++ [emptyState.nextId] }) ∧
    (runM (resolveRemote 7 true) (runM (resolveRemote 7 true) emptyState).2).1
        = .ok (.obj (emptyState.nextId + 1)) ∧
    (JSVal.obj (emptyState.nextId + 1) ≠ JSVal.obj emptyState.nextId) :=
  spec_c4_amended emptyState 7 rfl


/-- Unfolding of `resolveRemote` on the non-shadowed path. -/
theorem resolveRemote_false_def (tok : Nat) :
    resolveRemote tok false = (do
      let s ← get
      match alistGet tok s.key2Obj with
      | some pid => pure (.promise pid)
      | none => do
        let pid ← sendAndWait { type := .resolve, from_ := some tok }
        modify fun s => { s with key2Obj := alistSet tok pid s.key2Obj }
        pure (.promise pid)) := rfl

/-- C10: non-shadowed value resolution is memoized per token.  A call finding
the token already cached returns the identical stored promise, changes
nothing and sends nothing; a call on an unknown token sends exactly one
`resolve` request and caches the resulting promise under the token, and the
immediately following call returns that identical cached promise with no
further message. -/
theorem spec_c10_resolve_memoization (s : HState) (tok : Nat)
    (_hlive : s.disposed = false) :
    (∀ pid, alistGet tok s.key2Obj = some pid →
      runM (resolveRemote tok false) s = (.ok (.promise pid), s)) ∧
    (alistGet tok s.key2Obj = none →
      runM (resolveRemote tok false) s =
        (.ok (.promise s.nextId),
         { s with
             nextId := s.nextId + 1,
             promises := alistSet s.nextId .pending s.promises,
             counter := (s.counter + 1) % 2 ^ 32,
             resolvers := alistSet (s.counter + 1) s.nextId s.resolvers,
             outbox := s.outbox ++
               [.sent { type := .resolve, from_ := some tok, token := some (s.counter + 1) }],
             key2Obj := alistSet tok s.nextId s.key2Obj }) ∧
      runM (resolveRemote tok false) (runM (resolveRemote tok false) s).2 =
        (.ok (.promise s.nextId), (runM (resolveRemote tok false) s).2)) := by
  constructor
  · intro pid hpid
    rw [resolveRemote_false_def]
    simp only [runM_bind, runM_get, hpid]
    rfl
  · intro hnone
    have h1 : runM (resolveRemote tok false) s =
        (.ok (.promise s.nextId),
         { s with
             nextId := s.nextId + 1,
             promises := alistSet s.nextId .pending s.promises,
             counter := (s.counter + 1) % 2 ^ 32,
             resolvers := alistSet (s.counter + 1) s.nextId s.resolvers,
             outbox := s.outbox ++
               [.sent { type := .resolve, from_ := some tok, token := some (s.counter + 1) }],
             key2Obj := alistSet tok s.nextId s.key2Obj }) := by
      rw [resolveRemote_false_def]
      simp only [runM_bind, runM_get, hnone]
      rfl
    refine ⟨h1, ?_⟩
    rw [h1]
    rw [resolveRemote_false_def]
    simp only [runM_bind, runM_get]
    have h2 : alistGet tok (alistSet tok s.nextId s.key2Obj) = some s.nextId := by
      simp [alistGet, alistSet]
    simp only [h2]
    rfl

/-- Witness for C10: on a fresh handler, the first non-shadowed resolution of
token 4 sends one `resolve` request and caches the promise; the second call
returns the identical promise and changes nothing. -/
theorem spec_c10_witness :
    runM (resolveRemote 4 false) emptyState =
      (.ok (.promise emptyState.nextId),
       { emptyState with
           nextId := emptyState.nextId + 1,
           promises := alistSet emptyState.nextId .pending emptyState.promises,
           counter := (emptyState.counter + 1) % 2 ^ 32,
           resolvers := alistSet (emptyState.counter + 1) emptyState.nextId emptyState.resolvers,
           outbox := emptyState.outbox ++
             [.sent { type := .resolve, from_ := some 4,
                      token := some (emptyState.counter + 1) }],
           key2Obj := alistSet 4 emptyState.nextId emptyState.key2Obj }) ∧
    runM (resolveRemote 4 false) (runM (resolveRemote 4 false) emptyState).2 =
      (.ok (.promise emptyState.nextId), (runM (resolveRemote 4 false) emptyState).2) :=
  (spec_c10_resolve_memoization emptyState 4 rfl).2 rfl


/-- C5: the `resolveLocal` error taxonomy.  (a) An unknown (or absent) token
with a truthy kind-check argument fails with the invalid-token
`ReferenceError`; (b) an unknown token with no kind check returns an empty
result without failing; (c) a token that resolves to a value failing the
requested kind check (`typeof` tag or constructor identity) fails with the
type-mismatch `TypeError`. -/
theorem spec_c5_resolveLocal_taxonomy (s : HState) (id : Option Nat) (ty : TyArg)
    (_hlive : s.disposed = false) :
    (keyKnown s id = false → truthyTy ty = true →
      runM (resolveLocal id ty) s =
        (.error (.err (.builtin "ReferenceError" "Invalid Id")), s)) ∧
    (keyKnown s id = false → truthyTy ty = false →
      runM (resolveLocal id ty) s = (.ok none, s)) ∧
    (∀ i pid v, id = some i →
      alistGet i s.key2Obj = some pid →
      alistGet pid s.promises = some (.resolved v) →
      truthyTy ty = true →
      ensureType s v ty = false →
      runM (resolveLocal id ty) s =
        (.error (.err (.builtin "TypeError" "Invalid type")), s)) := by
  refine ⟨?_, ?_, ?_⟩
  · intro hkn hty
    cases id with
    | none =>
      simp only [resolveLocal, hty]
      rfl
    | some i =>
      have hn : alistGet i s.key2Obj = none := by
        cases h : alistGet i s.key2Obj with
        | none => rfl
        | some pid => simp [keyKnown, h] at hkn
      simp only [resolveLocal, runM_bind, runM_get, hn, hty]
      rfl
  · intro hkn hty
    cases id with
    | none =>
      simp only [resolveLocal, hty]
      rfl
    | some i =>
      have hn : alistGet i s.key2Obj = none := by
        cases h : alistGet i s.key2Obj with
        | none => rfl
        | some pid => simp [keyKnown, h] at hkn
      simp only [resolveLocal, runM_bind, runM_get, hn, hty]
      rfl
  · intro i pid v hid hget hprom hty hens
    subst hid
    simp only [resolveLocal, runM_bind, runM_get, hget]
    unfold awaitStrict
    simp only [runM_bind, runM_get, hprom, runM_pure]
    rw [hens]
    rfl

/-- Witness for C5: on a handler owning token 1 (a plain object), an unknown
token with a kind check raises the invalid-token error, an unknown token
without a check resolves empty, and token 1 checked against the function
kind raises the type-mismatch error. -/
theorem spec_c5_witness :
    runM (resolveLocal (some 99) (.str "function")) demoRegistryState =
      (.error (.err (.builtin "ReferenceError" "Invalid Id")), demoRegistryState) ∧
    runM (resolveLocal (some 99) .noTy) demoRegistryState =
      (.ok none, demoRegistryState) ∧
    runM (resolveLocal (some 1) (.str "function")) demoRegistryState =
      (.error (.err (.builtin "TypeError" "Invalid type")), demoRegistryState) :=
  ⟨(spec_c5_resolveLocal_taxonomy demoRegistryState (some 99) (.str "function")
      rfl).1 rfl rfl,
   (spec_c5_resolveLocal_taxonomy demoRegistryState (some 99) .noTy rfl).2.1
      rfl rfl,
   (spec_c5_resolveLocal_taxonomy demoRegistryState (some 1) (.str "function")
      rfl).2.2 1 0 (.obj 10) rfl rfl rfl rfl rfl⟩


/-- C6: any failure thrown while evaluating an inbound message's branch is
caught; it is answered with a `failed` message carrying the packed error
exactly when the message carries a correlation token, and with no message at
all (beyond whatever the branch itself had already sent) when it does not. -/
theorem spec_c6_failure_propagation (data : WireMsg) (s : HState) (e : JSErr)
    (_hlive : s.disposed = false)
    (hb : (runM (evalBranch data) s).1 = Except.error (Halt.err e)) :
    (data.token = none →
      runM (onReceive data) s = (Except.ok (), (runM (evalBranch data) s).2)) ∧
    (∀ tok pr, data.token = some tok →
      (runM (packOfThrown e) (runM (evalBranch data) s).2).1 = Except.ok pr →
      runM (onReceive data) s =
        (Except.ok (),
          { (runM (packOfThrown e) (runM (evalBranch data) s).2).2 with
              outbox := (runM (packOfThrown e) (runM (evalBranch data) s).2).2.outbox ++
                [.sent { type := .failed, token := some tok, reason := pr }] })) := by
  rcases hbp : runM (evalBranch data) s with ⟨rb, sb⟩
  rw [hbp] at hb
  simp only at hb
  subst hb
  constructor
  · intro htok
    unfold onReceive
    rw [runM_tryCatch, runM_bind, hbp, htok]
    rfl
  · intro tok pr htok hpk
    simp only at hpk
    rcases hp : runM (packOfThrown e) sb with ⟨rp, sp⟩
    rw [hp] at hpk
    simp only at hpk
    subst hpk
    unfold onReceive
    rw [runM_tryCatch, runM_bind, hbp, htok]
    simp only [runM_bind, hp, runM_send]

/-- Witness for C6: an `apply` naming unregistered token 99 with correlation
token 7 is answered by a single `failed` reply carrying the packed
invalid-token error. -/
theorem spec_c6_witness :
    runM (onReceive demoFailMsg) emptyState =
      (.ok (), { emptyState with outbox :=
        [.sent { type := .failed, token := some 7,
                 reason := .error (some "ReferenceError") (some "Invalid Id") none }] }) :=
  (spec_c6_failure_propagation demoFailMsg emptyState
      (.builtin "ReferenceError" "Invalid Id") rfl rfl).2 7
    (.error (some "ReferenceError") (some "Invalid Id") none) rfl rfl


/-- C7: request-correlation settlement.  When a pending entry exists under a
token, an inbound `success` bearing it pops the entry exactly once and calls
its fulfil half with `unpack(value)`, and an inbound `failed` calls its
reject half with `unpack(reason)`; when no pending entry exists under the
token, neither message settles anything and the pending table is untouched
(duplicate and stray replies are ignored; the only effect is the echo reply
of the fall-through bug). -/
theorem spec_c7_correlation (s : HState) (t : Nat) (pv : Packed)
    (_hlive : s.disposed = false) :
    (∀ pid v sU, alistGet t s.resolvers = some pid →
      runM (unpack pv) { s with resolvers := alistRemove t s.resolvers } = (.ok v, sU) →
      alistGet t (alistRemove t s.resolvers) = none ∧
      (runM (onReceive { type := .success, token := some t, value := pv }) s).1
          = .ok () ∧
      (runM (onReceive { type := .success, token := some t, value := pv }) s).2.settlements
          = (pid, .fulfilled v) :: sU.settlements ∧
      (runM (onReceive { type := .success, token := some t, value := pv }) s).2.resolvers
          = sU.resolvers) ∧
    (∀ pid v sU, alistGet t s.resolvers = some pid →
      runM (unpack pv) { s with resolvers := alistRemove t s.resolvers } = (.ok v, sU) →
      (runM (onReceive { type := .failed, token := some t, reason := pv }) s).1
          = .ok () ∧
      (runM (onReceive { type := .failed, token := some t, reason := pv }) s).2.settlements
          = (pid, .rejected v) :: sU.settlements ∧
      (runM (onReceive { type := .failed, token := some t, reason := pv }) s).2.resolvers
          = sU.resolvers) ∧
    (alistGet t s.resolvers = none →
      runM (onReceive { type := .success, token := some t, value := pv }) s =
        (.ok (), { s with outbox := s.outbox ++
          [.sent { type := .success, token := some t, value := .prim .undef }] }) ∧
      runM (onReceive { type := .failed, token := some t, reason := pv }) s =
        (.ok (), { s with outbox := s.outbox ++
          [.sent { type := .success, token := some t, value := .prim .undef }] })) := by
  have hrem : ∀ l : List (Nat × Nat), alistGet t (alistRemove t l) = none := by
    intro l
    induction l with
    | nil => rfl
    | cons p tl ih =>
      rcases p with ⟨k, w⟩
      by_cases hk : k = t
      · simp [alistRemove, hk, ih]
      · simp [alistRemove, alistGet, hk, ih]
  refine ⟨?_, ?_, ?_⟩
  · intro pid v sU hres hu
    have hev : runM (evalBranch { type := .success, token := some t, value := pv }) s
        = (.ok (.undef, false), (runM (settle pid (.fulfilled v)) sU).2) := by
      unfold evalBranch popResolver
      simp only [runM_bind, runM_get, hres, runM_set, runM_pure, hu, runM_modify]
      rfl
    have hR : runM (onReceive { type := .success, token := some t, value := pv }) s =
        (.ok (), { (runM (settle pid (.fulfilled v)) sU).2 with
          outbox := (runM (settle pid (.fulfilled v)) sU).2.outbox ++
            [.sent { type := .success, token := some t, value := .prim .undef }] }) := by
      unfold onReceive
      rw [runM_tryCatch, runM_bind, hev]
      rfl
    rw [hR]
    exact ⟨hrem s.resolvers, rfl, rfl, rfl⟩
  · intro pid v sU hres hu
    have hev : runM (evalBranch { type := .failed, token := some t, reason := pv }) s
        = (.ok (.undef, false), (runM (settle pid (.rejected v)) sU).2) := by
      unfold evalBranch popResolver
      simp only [runM_bind, runM_get, hres, runM_set, runM_pure, hu, runM_modify]
      rfl
    have hR : runM (onReceive { type := .failed, token := some t, reason := pv }) s =
        (.ok (), { (runM (settle pid (.rejected v)) sU).2 with
          outbox := (runM (settle pid (.rejected v)) sU).2.outbox ++
            [.sent { type := .success, token := some t, value := .prim .undef }] }) := by
      unfold onReceive
      rw [runM_tryCatch, runM_bind, hev]
      rfl
    rw [hR]
    exact ⟨rfl, rfl, rfl⟩
  · intro hres
    constructor
    · have hev : runM (evalBranch { type := .success, token := some t, value := pv }) s
          = (.ok (.undef, false), s) := by
        unfold evalBranch popResolver
        simp only [runM_bind, runM_get, hres, runM_pure]
      unfold onReceive
      rw [runM_tryCatch, runM_bind, hev]
      rfl
    · have hev : runM (evalBranch { type := .failed, token := some t, reason := pv }) s
          = (.ok (.undef, false), s) := by
        unfold evalBranch popResolver
        simp only [runM_bind, runM_get, hres, runM_pure]
      unfold onReceive
      rw [runM_tryCatch, runM_bind, hev]
      rfl

/-- Witness for C7: on a handler with one pending request under token 5, an
inbound `success` bearing token 5 removes the entry and fulfils its settle
target with the unpacked value 42. -/
theorem spec_c7_witness :
    alistGet 5 (alistRemove 5 demoPendingState.resolvers) = none ∧
    (runM (onReceive { type := .success, token := some 5, value := .prim (.num 42) })
        demoPendingState).1 = .ok () ∧
    (runM (onReceive { type := .success, token := some 5, value := .prim (.num 42) })
        demoPendingState).2.settlements
        = (0, .fulfilled (.num 42)) :: ({ demoPendingState with
            resolvers := alistRemove 5 demoPendingState.resolvers } : HState).settlements ∧
    (runM (onReceive { type := .success, token := some 5, value := .prim (.num 42) })
        demoPendingState).2.resolvers
        = ({ demoPendingState with
            resolvers := alistRemove 5 demoPendingState.resolvers } : HState).resolvers :=
  (spec_c7_correlation demoPendingState 5 (.prim (.num 42)) rfl).1 0 (.num 42)
    { demoPendingState with resolvers := alistRemove 5 demoPendingState.resolvers }
    rfl rfl


/-- Counterexample for C8 as stated: a solid-marked value that is not a
remote handle but is an Error instance packs as an `error` wire entry, not a
`clonedValue` entry — `pack` checks `instanceof Error` before the solid
check. -/
theorem spec_c8_counterexample :
    isSolidB solidErrorState (.obj 0) = true ∧
    isHandler solidErrorState (.obj 0) = false ∧
    runM (WormholeShadow.pack (.obj 0) false) solidErrorState =
      (.ok (.error (some "Error") (some "boom") none), solidErrorState) ∧
    Packed.isClonedValue (.error (some "Error") (some "boom") none) = false :=
  ⟨rfl, rfl, rfl, rfl⟩

/-- C8 (amended): for every reference value that is marked solid, is not a
remote handle and is not an Error instance, `pack` yields the `clonedValue`
wire entry containing the value, regardless of the `forceClone` argument,
and leaves the handler state unchanged — so every repetition packs it the
same way. -/
theorem spec_c8_amended (s : HState) (v : JSVal) (clone : Bool)
    (hlive : s.disposed = false)
    (href : isReferenceType v = true)
    (herr : errorInfoOf s v = none)
    (hh : isHandler s v = false)
    (hsolid : isSolidB s v = true) :
    runM (WormholeShadow.pack v clone) s = (.ok (.value v), s) := by
  have hmem : (listHas v s.solidObjects || listHas v s.globalSolidObjects) = true := by
    unfold isSolidB at hsolid
    rw [href] at hsolid
    simpa using hsolid
  cases v with
  | obj a =>
    unfold pack
    simp only [runM_bind, runM_get, herr]
    cases clone with
    | true => rfl
    | false =>
      unfold isSolid
      simp only [isReferenceType, runM_bind, runM_get, hlive, hmem, runM_pure,
                 Bool.false_eq_true, if_false, if_true, hh, Bool.not_false,
                 Bool.and_true, Bool.and_false]
  | promise p =>
    unfold pack
    simp only [runM_bind, runM_get, herr]
    cases clone with
    | true => rfl
    | false =>
      unfold isSolid
      simp only [isReferenceType, runM_bind, runM_get, hlive, hmem, runM_pure,
                 Bool.false_eq_true, if_false, if_true, hh, Bool.not_false,
                 Bool.and_true, Bool.and_false]
  | undef => simp [isReferenceType] at href
  | nul => simp [isReferenceType] at href
  | bool b => simp [isReferenceType] at href
  | num n => simp [isReferenceType] at href
  | str st => simp [isReferenceType] at href
  | sym a => simp [isReferenceType] at href

/-- Witness for C8 (amended): a solid-marked plain object packs as a
`clonedValue` entry with the state unchanged, under either `forceClone`
argument. -/
theorem spec_c8_witness :
    runM (WormholeShadow.pack (.obj 0) false) solidPlainState =
      (.ok (.value (.obj 0)), solidPlainState) ∧
    runM (WormholeShadow.pack (.obj 0) true) solidPlainState =
      (.ok (.value (.obj 0)), solidPlainState) :=
  ⟨spec_c8_amended solidPlainState (.obj 0) false rfl rfl rfl rfl rfl,
   spec_c8_amended solidPlainState (.obj 0) true rfl rfl rfl rfl rfl⟩


/-- Closed form of the stored `Uint32Array` counter after `n` calls. -/
theorem u32CounterAfter_eq (c : Nat) (hc : c < 2 ^ 32) :
    ∀ n, u32CounterAfter c n = (c + n) % 2 ^ 32 := by
  intro n
  induction n with
  | zero => simpa [u32CounterAfter] using (Nat.mod_eq_of_lt hc).symm
  | succ k ih =>
    unfold u32CounterAfter u32AquireToken
    rw [ih]
    conv_rhs => rw [show c + (k + 1) = c + k + 1 by omega]
    rw [Nat.add_mod (c + k) 1]
    simp [Nat.mod_mod_of_dvd]

/-- C9 (amended): on one endpoint whose stored counter starts at `c`, any
`N ≤ 2 ^ 32` sequential `aquireToken` calls yield pairwise-distinct tokens.
(The `Uint32Array` storage wraps at `2 ^ 32`, so the claim's unbounded `N`
fails — see the counterexample.) -/
theorem spec_c9_amended (c N i j : Nat) (hc : c < 2 ^ 32) (h1 : 1 ≤ i)
    (hiN : i ≤ N) (h2 : 1 ≤ j) (hjN : j ≤ N) (hN : N ≤ 2 ^ 32) (hij : i ≠ j) :
    u32TokenAt c i ≠ u32TokenAt c j := by
  intro h
  unfold u32TokenAt u32AquireToken at h
  simp only at h
  have h' : (c + (i - 1)) % 2 ^ 32 = (c + (j - 1)) % 2 ^ 32 := by
    have hcc : u32CounterAfter c (i - 1) = u32CounterAfter c (j - 1) := by omega
    rw [u32CounterAfter_eq c hc, u32CounterAfter_eq c hc] at hcc
    exact hcc
  have key : ∀ a b : Nat, a < b → b - a < 2 ^ 32 →
      (c + a) % 2 ^ 32 = (c + b) % 2 ^ 32 → False := by
    intro a b hab hlt heq
    have hd : (2 ^ 32 : Nat) ∣ (c + b) - (c + a) :=
      (Nat.modEq_iff_dvd' (by omega)).1 heq
    have hba : (c + b) - (c + a) = b - a := by omega
    rw [hba] at hd
    have := Nat.le_of_dvd (by omega) hd
    omega
  rcases Nat.lt_or_ge i j with h3 | h3
  · exact key (i - 1) (j - 1) (by omega) (by omega) h'
  · have h4 : j < i := by omega
    exact key (j - 1) (i - 1) (by omega) (by omega) h'.symm

/-- Counterexample for C9 as stated: with the counter starting at 0, the
first call and call number `2 ^ 32 + 1` both return token 1 — `N` sequential
calls are not pairwise distinct for every `N`. -/
theorem spec_c9_counterexample :
    u32TokenAt 0 1 = 1 ∧ u32TokenAt 0 (2 ^ 32 + 1) = 1 := by
  have h : ∀ k, u32TokenAt 0 k = (0 + (k - 1)) % 2 ^ 32 + 1 := by
    intro k
    unfold u32TokenAt u32AquireToken
    rw [u32CounterAfter_eq 0 (by norm_num)]
  constructor
  · rw [h 1]
    norm_num
  · rw [h (2 ^ 32 + 1)]
    norm_num

/-- Witness for C9 (amended): the first two tokens of a fresh counter
differ. -/
theorem spec_c9_witness : u32TokenAt 0 1 ≠ u32TokenAt 0 2 :=
  spec_c9_amended 0 2 1 2 (by norm_num) (by norm_num) (by norm_num)
    (by norm_num) (by norm_num) (by norm_num) (by decide)


/-- `dispose` in explicit form. -/
theorem runM_dispose (s : HState) :
    runM dispose s =
      (.ok (), { s with
         revoked := s.revoked ++ s.disposableCallbacks,
         resolvers := [], solidObjects := [], disposableCallbacks := [],
         key2Obj := [], obj2Key := [], key2Sym := [], sym2Key := [],
         disposed := true }) := rfl

theorem listHas_append_right {α : Type} [DecidableEq α] {x : α} {l₂ : List α}
    (l₁ : List α) (h : listHas x l₂ = true) : listHas x (l₁ ++ l₂) = true := by
  induction l₁ with
  | nil => simpa using h
  | cons y t ih =>
    by_cases hy : y = x <;> simp [listHas, hy, ih]

/-- Counterexample for C3 as stated: on an endpoint that created one shadow
handle and was then disposed, the solid-check operation raises a TypeError
when given a reference value (its backing registry field was deleted), so
"does not raise" fails. -/
theorem spec_c3_counterexample :
    listHas 0 demoShadowState.disposableCallbacks = true ∧
    runM (isSolid (.obj 0)) demoDisposedState =
      (.error (.err (.builtin "TypeError"
        "Cannot read properties of undefined (solidObjects.has)")),
       demoDisposedState) :=
  ⟨rfl, rfl⟩

/-- C3 (amended): after `dispose()` every handle operation (read, write,
delete, invoke, instantiate — and resolution, which goes through the read of
the thenable key) on a handle previously created by this endpoint fails with
the revoked-proxy TypeError; `setSolid` and `isSolid` on the disposed
endpoint raise a TypeError when given a reference-typed value, and only for
primitive values do they return without raising. -/
theorem spec_c3_amended (s : HState) (a tok : Nat) (k : JSKey) (v w : JSVal)
    (args : List JSVal)
    (ha : listHas a s.disposableCallbacks = true) :
    runM (hGetTrap a tok k) (runM dispose s).2
        = (.error (revokedErr "get"), (runM dispose s).2) ∧
    runM (hSetTrap a tok k v) (runM dispose s).2
        = (.error (revokedErr "set"), (runM dispose s).2) ∧
    runM (hDeleteTrap a tok k) (runM dispose s).2
        = (.error (revokedErr "deleteProperty"), (runM dispose s).2) ∧
    runM (hApplyTrap a tok v args) (runM dispose s).2
        = (.error (revokedErr "apply"), (runM dispose s).2) ∧
    runM (hConstructTrap a tok args) (runM dispose s).2
        = (.error (revokedErr "construct"), (runM dispose s).2) ∧
    (isReferenceType w = true →
      runM (setSolid w) (runM dispose s).2
          = (.error (.err (.builtin "TypeError"
              "Cannot read properties of undefined (solidObjects.add)")),
             (runM dispose s).2) ∧
      runM (isSolid w) (runM dispose s).2
          = (.error (.err (.builtin "TypeError"
              "Cannot read properties of undefined (solidObjects.has)")),
             (runM dispose s).2)) ∧
    (isReferenceType w = false →
      runM (setSolid w) (runM dispose s).2 = (.ok (), (runM dispose s).2) ∧
      runM (isSolid w) (runM dispose s).2 = (.ok false, (runM dispose s).2)) := by
  have hrev : listHas a (runM dispose s).2.revoked = true :=
    listHas_append_right s.revoked ha
  refine ⟨?_, ?_, ?_, ?_, ?_, ?_, ?_⟩
  · unfold hGetTrap checkRevoked
    simp only [runM_bind, runM_get, hrev]
    rfl
  · unfold hSetTrap checkRevoked
    simp only [runM_bind, runM_get, hrev]
    rfl
  · unfold hDeleteTrap checkRevoked
    simp only [runM_bind, runM_get, hrev]
    rfl
  · unfold hApplyTrap checkRevoked
    simp only [runM_bind, runM_get, hrev]
    rfl
  · unfold hConstructTrap checkRevoked
    simp only [runM_bind, runM_get, hrev]
    rfl
  · intro hw
    unfold setSolid isSolid
    rw [hw]
    constructor
    · simp only [runM_bind, runM_get, if_true]
      rfl
    · simp only [runM_bind, runM_get, if_true]
      rfl
  · intro hw
    unfold setSolid isSolid
    rw [hw]
    constructor
    · rfl
    · rfl

/-- Witness for C3 (amended): on the endpoint that created shadow proxy 0 and
was disposed, the read and invoke operations on that handle fail with the
revoked-proxy TypeError, `isSolid` raises on a reference value, and
`setSolid` on a primitive value returns without raising. -/
theorem spec_c3_witness :
    runM (hGetTrap 0 3 (.str "foo")) (runM dispose demoShadowState).2
        = (.error (revokedErr "get"), (runM dispose demoShadowState).2) ∧
    runM (hApplyTrap 0 3 .undef []) (runM dispose demoShadowState).2
        = (.error (revokedErr "apply"), (runM dispose demoShadowState).2) ∧
    runM (isSolid (.obj 0)) (runM dispose demoShadowState).2
        = (.error (.err (.builtin "TypeError"
            "Cannot read properties of undefined (solidObjects.has)")),
           (runM dispose demoShadowState).2) ∧
    runM (setSolid (.num 1)) (runM dispose demoShadowState).2
        = (.ok (), (runM dispose demoShadowState).2) :=
  ⟨(spec_c3_amended demoShadowState 0 3 (.str "foo") .undef (.obj 0) [] rfl).1,
   (spec_c3_amended demoShadowState 0 3 (.str "foo") .undef (.obj 0) [] rfl).2.2.2.1,
   ((spec_c3_amended demoShadowState 0 3 (.str "foo") .undef (.obj 0) [] rfl).2.2.2.2.2.1
      rfl).2,
   ((spec_c3_amended demoShadowState 0 3 (.str "foo") .undef (.num 1) [] rfl).2.2.2.2.2.2
      rfl).1⟩

end WormholeShadow
